import Mathlib

/-!
# keyauth: key-authentication middleware (hertz-contrib/keyauth)

A shallow embedding of `keyauth.go` and `option.go`.

* A Go `string` is an immutable sequence of bytes: `GoString = List Byte`,
  `len` is `List.length`, `s[:n]` is `List.take`, `s[n:]` is `List.drop`
  (both bounds-checked, see `sliceTo` and `sliceFrom`), `==` is equality.
* A Go `error` interface value is `Option GoError`, `none` being `nil`.
* A Go function value may be `nil`: the behaviour slots of `Options` are
  `Option`s, and calling `none` is a runtime panic.
* Code that may panic returns `Except Panic _`.
* The host's `*app.RequestContext` is the record `RequestContext`; callbacks
  receive the pointer, so they are state transformers on that record.  The
  `context.Context` argument is passed through untouched by every function of
  the package and is left out.
* The handler returned by `New` is instrumented: next to its result it returns
  the list of calls it made (`Event`), in order.
-/

namespace keyauth

/-! ## Go values -/

/-- One byte. -/
abbrev Byte := Fin 256

/-- Go `string`: a sequence of bytes. -/
abbrev GoString := List Byte

/-- The Go string literal with the given text (its UTF-8 bytes). -/
def str (s : String) : GoString :=
  s.toList.flatMap (fun c => (String.utf8EncodeChar c).map (fun b => b.val))

/-- Runtime panics that the package can raise. -/
inductive Panic where
  /-- method call on a nil interface value, as in `err.Error()` with `err == nil` -/
  | nilDereference
  /-- call of a nil function value -/
  | nilFuncCall
  /-- slice bounds out of range -/
  | sliceOutOfRange
  /-- explicit `panic(errors.New(msg))` -/
  | error (msg : GoString)
  /-- a panic raised inside a caller-supplied callback -/
  | callback (msg : GoString)
  deriving DecidableEq, Repr

/-- Non-nil Go error values, up to what the package can observe: the package
variable `ErrMissingOrMalformedAPIKey` is compared by identity, so it is a
value of its own; every other error is known by its message only (and is a
different value even when its message is the same text). -/
inductive GoError where
  | missingOrMalformedAPIKey
  | other (msg : GoString)
  deriving DecidableEq, Repr

/-- Source: `var ErrMissingOrMalformedAPIKey = errors.New("missing or malformed API Key")` -/
def ErrMissingOrMalformedAPIKey : GoError := GoError.missingOrMalformedAPIKey

/-- The method `Error()` of a non-nil error. -/
def GoError.Error : GoError → GoString
  | .missingOrMalformedAPIKey => str "missing or malformed API Key"
  | .other msg => msg

/-- Go `error` interface value; `none` is `nil`. -/
abbrev error := Option GoError

/-- Source: `err.Error()` on an interface value: panics on `nil`. -/
def error.Error : error → Except Panic GoString
  | none => .error Panic.nilDereference
  | some e => .ok e.Error

/-- Source: `s[:hi]` on a string. -/
def sliceTo (s : GoString) (hi : Nat) : Except Panic GoString :=
  if hi ≤ s.length then .ok (s.take hi) else .error Panic.sliceOutOfRange

/-- Source: `s[lo:]` on a string. -/
def sliceFrom (s : GoString) (lo : Nat) : Except Panic GoString :=
  if lo ≤ s.length then .ok (s.drop lo) else .error Panic.sliceOutOfRange

/-- Source: `strconv.B2S`, the bytes of a `[]byte` as a string. -/
def B2S (b : List Byte) : GoString := b

/-- The byte `:`. -/
def colon : Byte := 58

/-- The byte of one space character. -/
def space : Byte := 32

/-- Source: `strings.Split(s, sep)` for a separator of one byte: the pieces of
`s` between consecutive occurrences of `sep` (one piece more than there are
occurrences; `[""]` for the empty string). -/
def Split (s : GoString) (sep : Byte) : List GoString :=
  match s with
  | [] => [[]]
  | c :: cs =>
    if c = sep then [] :: Split cs sep
    else
      match Split cs sep with
      | [] => [[c]]
      | p :: ps => (c :: p) :: ps

/-- Source (hertz): `http.StatusBadRequest`. -/
def StatusBadRequest : Nat := 400

/-- Source (hertz): `http.StatusUnauthorized`. -/
def StatusUnauthorized : Nat := 401

/-- Source (hertz): `consts.HeaderAuthorization`. -/
def HeaderAuthorization : GoString := str "Authorization"

/-! ## The host's request context -/

/-- The part of `*app.RequestContext` that the package reads and writes.
The five lookups give `none` for a field that is absent. -/
structure RequestContext where
  /-- request headers -/
  header : GoString → Option GoString
  /-- query-string arguments -/
  query : GoString → Option GoString
  /-- arguments of a form-encoded POST or PUT body -/
  postArgs : GoString → Option GoString
  /-- values of the multipart form, by name; `none` when the request has no
  multipart form -/
  multipartForm : Option (GoString → List GoString)
  /-- route parameters -/
  param : GoString → Option GoString
  /-- request cookies -/
  cookie : GoString → Option GoString
  /-- the key-value store written by `Set` -/
  Keys : GoString → Option GoString
  /-- response status code -/
  StatusCode : Nat
  /-- response body -/
  Body : GoString
  /-- whether the handler chain was aborted -/
  aborted : Bool
  /-- how many times the continuation `Next` was invoked -/
  nextCalls : Nat

/-- Source: `ctx.GetHeader(name)`; empty for an absent header. -/
def RequestContext.GetHeader (c : RequestContext) (name : GoString) : List Byte :=
  (c.header name).getD []

/-- Source: `ctx.Query(name)`; `""` for an absent argument. -/
def RequestContext.Query (c : RequestContext) (name : GoString) : GoString :=
  (c.query name).getD []

/-- Source (hertz): `ctx.FormValue(name)`.  The value is searched in the query
string first, then in the POST args, then in the multipart form; the first
non-empty one is returned, and the result is empty when there is none. -/
def RequestContext.FormValue (c : RequestContext) (name : GoString) : List Byte :=
  let v := (c.query name).getD []
  if v.length > 0 then v
  else
    let v := (c.postArgs name).getD []
    if v.length > 0 then v
    else
      match c.multipartForm with
      | none => []
      | some values =>
        match values name with
        | [] => []
        | first :: _ => first

/-- Source: `ctx.Param(name)`; `""` for an absent parameter. -/
def RequestContext.Param (c : RequestContext) (name : GoString) : GoString :=
  (c.param name).getD []

/-- Source: `ctx.Cookie(name)`; empty for an absent cookie. -/
def RequestContext.Cookie (c : RequestContext) (name : GoString) : List Byte :=
  (c.cookie name).getD []

/-- Source: `ctx.Set(key, value)`. -/
def RequestContext.Set (c : RequestContext) (key value : GoString) : RequestContext :=
  { c with Keys := fun k => if k = key then some value else c.Keys k }

/-- Source: `ctx.Get(key)`. -/
def RequestContext.Get (c : RequestContext) (key : GoString) : Option GoString :=
  c.Keys key

/-- Source: `ctx.Next(c)`, the continuation: the rest of the handler chain
runs.  What the later handlers do is outside the package; the call is counted. -/
def RequestContext.Next (c : RequestContext) : RequestContext :=
  { c with nextCalls := c.nextCalls + 1 }

/-- Source: `ctx.AbortWithMsg(msg, statusCode)`. -/
def RequestContext.AbortWithMsg (c : RequestContext) (msg : GoString) (statusCode : Nat) :
    RequestContext :=
  { c with StatusCode := statusCode, Body := msg, aborted := true }

/-! ## option.go -/

/-- Source: `app.HandlerFunc`. -/
abbrev HandlerFunc := RequestContext → Except Panic RequestContext

/-- Source: `type KeyAuthFilterHandler func(c, ctx) bool`. -/
abbrev KeyAuthFilterHandler := RequestContext → Except Panic (Bool × RequestContext)

/-- Source: `type KeyAuthErrorHandler func(c, ctx, error)`. -/
abbrev KeyAuthErrorHandler := RequestContext → error → Except Panic RequestContext

/-- Source: `type KeyAuthValidatorHandler func(c, ctx, string) (bool, error)`. -/
abbrev KeyAuthValidatorHandler :=
  RequestContext → GoString → Except Panic ((Bool × error) × RequestContext)

/-- Source: `type Options struct`. -/
structure Options where
  filterHandler : Option KeyAuthFilterHandler
  successHandler : Option HandlerFunc
  errorHandler : Option KeyAuthErrorHandler
  keyLookup : GoString
  authScheme : GoString
  validator : Option KeyAuthValidatorHandler
  contextKey : GoString

/-- Source: `type Option struct { F func(o *Options) }` (named `KeyAuthOption`
here, `Option` being taken). -/
structure KeyAuthOption where
  F : Options → Options

/-- Source: `func (o *Options) Apply(opts []Option)`. -/
def Options.Apply (o : Options) (opts : List KeyAuthOption) : Options :=
  opts.foldl (fun acc op => op.F acc) o

/-- The `successHandler` literal of `NewOptions`. -/
def defaultSuccessHandler : HandlerFunc :=
  fun ctx => .ok ctx.Next

/-- The `errorHandler` literal of `NewOptions`. -/
def defaultErrorHandler : KeyAuthErrorHandler :=
  fun ctx err =>
    if err = some ErrMissingOrMalformedAPIKey then
      match error.Error err with
      | .error p => .error p
      | .ok msg => .ok (ctx.AbortWithMsg msg StatusBadRequest)
    else
      match error.Error err with
      | .error p => .error p
      | .ok msg => .ok (ctx.AbortWithMsg msg StatusUnauthorized)

/-- The `validator` literal of `NewOptions`. -/
def defaultValidator : KeyAuthValidatorHandler :=
  fun requestContext _ => .ok ((true, none), requestContext)

/-- The struct literal of `NewOptions`, before the options are applied. -/
def defaultOptions : Options where
  filterHandler := none
  successHandler := some defaultSuccessHandler
  errorHandler := some defaultErrorHandler
  validator := some defaultValidator
  authScheme := str "Bearer"
  contextKey := str "token"
  keyLookup := str "header:" ++ HeaderAuthorization

/-- Source: `func NewOptions(opts ...Option) *Options`. -/
def NewOptions (opts : List KeyAuthOption) : Options :=
  defaultOptions.Apply opts

/-- Source: `func WithFilter(f KeyAuthFilterHandler) Option`. -/
def WithFilter (f : Option KeyAuthFilterHandler) : KeyAuthOption :=
  { F := fun o => { o with filterHandler := f } }

/-- Source: `func WithSuccessHandler(f app.HandlerFunc) Option`. -/
def WithSuccessHandler (f : Option HandlerFunc) : KeyAuthOption :=
  { F := fun o => { o with successHandler := f } }

/-- Source: `func WithErrorHandler(f KeyAuthErrorHandler) Option`. -/
def WithErrorHandler (f : Option KeyAuthErrorHandler) : KeyAuthOption :=
  { F := fun o => { o with errorHandler := f } }

/-- Source: `func WithKeyLookUp(lookup, authScheme string) Option`. -/
def WithKeyLookUp (lookup authScheme : GoString) : KeyAuthOption :=
  { F := fun o => { o with keyLookup := lookup, authScheme := authScheme } }

/-- Source: `func WithValidator(f KeyAuthValidatorHandler) Option`. -/
def WithValidator (f : Option KeyAuthValidatorHandler) : KeyAuthOption :=
  { F := fun o => { o with validator := f } }

/-- Source: `func WithContextKey(key string) Option`. -/
def WithContextKey (key : GoString) : KeyAuthOption :=
  { F := fun o => { o with contextKey := key } }

/-! ## keyauth.go: the extractors -/

/-- The type `func(*app.RequestContext) (string, error)` of an extractor. -/
abbrev Extractor := RequestContext → Except Panic (GoString × error)

/-- Source: `func KeyFromHeader(header, authScheme string)`. -/
def KeyFromHeader (header authScheme : GoString) : Extractor :=
  fun c =>
    let auth := B2S (c.GetHeader header)
    let l := authScheme.length
    if auth.length > 0 ∧ l = 0 then .ok (auth, none)
    else if auth.length > l + 1 then
      match sliceTo auth l with
      | .error p => .error p
      | .ok head =>
        if head = authScheme then
          match sliceFrom auth (l + 1) with
          | .error p => .error p
          | .ok key => .ok (key, none)
        else .ok ([], some ErrMissingOrMalformedAPIKey)
    else .ok ([], some ErrMissingOrMalformedAPIKey)

/-- Source: `func KeyFromQuery(param string)`. -/
def KeyFromQuery (param : GoString) : Extractor :=
  fun c =>
    let key := c.Query param
    if key = [] then .ok ([], some ErrMissingOrMalformedAPIKey) else .ok (key, none)

/-- Source: `func KeyFromForm(param string)`. -/
def KeyFromForm (param : GoString) : Extractor :=
  fun c =>
    let key := B2S (c.FormValue param)
    if key = [] then .ok ([], some ErrMissingOrMalformedAPIKey) else .ok (key, none)

/-- Source: `func KeyFromParam(param string)`. -/
def KeyFromParam (param : GoString) : Extractor :=
  fun c =>
    let key := c.Param param
    if key = [] then .ok ([], some ErrMissingOrMalformedAPIKey) else .ok (key, none)

/-- Source: `func KeyFromCookie(name string)`. -/
def KeyFromCookie (name : GoString) : Extractor :=
  fun c =>
    let key := B2S (c.Cookie name)
    if key = [] then .ok ([], some ErrMissingOrMalformedAPIKey) else .ok (key, none)

/-! ## keyauth.go: the middleware -/

/-- The calls made by the handler that `New` returns, as they appear in its
source text. -/
inductive Event where
  /-- the call `cfg.filterHandler(c, ctx)` -/
  | filterHandler
  /-- the call `ctx.Next(c)` of the filter branch -/
  | next
  /-- the call `extractor(ctx)` -/
  | extractor
  /-- the call `cfg.validator(c, ctx, key)` -/
  | validator (key : GoString)
  /-- the call `ctx.Set(cfg.contextKey, key)` -/
  | set (contextKey key : GoString)
  /-- the call `cfg.successHandler(c, ctx)` -/
  | successHandler
  /-- the call `cfg.errorHandler(c, ctx, err)` -/
  | errorHandler (err : error)
  deriving DecidableEq, Repr

/-- One run of the handler: the calls it made, in order, and how it ended
(the request context it leaves behind, or the panic that stopped it). -/
structure Run where
  trace : List Event
  result : Except Panic RequestContext

/-- The run `r`, preceded by the calls `pre`. -/
def Run.after (pre : List Event) (r : Run) : Run :=
  { trace := pre ++ r.trace, result := r.result }

/-- Source: the call `cfg.errorHandler(c, ctx, err)`. -/
def callErrorHandler (cfg : Options) (ctx : RequestContext) (err : error) : Run :=
  match cfg.errorHandler with
  | none => { trace := [], result := .error Panic.nilFuncCall }
  | some h => { trace := [Event.errorHandler err], result := h ctx err }

/-- Source: the call `cfg.successHandler(c, ctx)`. -/
def callSuccessHandler (cfg : Options) (ctx : RequestContext) : Run :=
  match cfg.successHandler with
  | none => { trace := [], result := .error Panic.nilFuncCall }
  | some h => { trace := [Event.successHandler], result := h ctx }

/-- Source: the handler returned by `New`, from `// Extract and verify key` on. -/
def extractAndVerify (cfg : Options) (extractor : Extractor) (ctx : RequestContext) : Run :=
  match extractor ctx with
  | .error p => { trace := [Event.extractor], result := .error p }
  | .ok (_, some e) => Run.after [Event.extractor] (callErrorHandler cfg ctx (some e))
  | .ok (key, none) =>
    match cfg.validator with
    | none => { trace := [Event.extractor], result := .error Panic.nilFuncCall }
    | some validate =>
      match validate ctx key with
      | .error p => { trace := [Event.extractor, Event.validator key], result := .error p }
      | .ok ((valid, err), ctx2) =>
        if err = none ∧ valid = true then
          Run.after [Event.extractor, Event.validator key, Event.set cfg.contextKey key]
            (callSuccessHandler cfg (ctx2.Set cfg.contextKey key))
        else
          Run.after [Event.extractor, Event.validator key] (callErrorHandler cfg ctx2 err)

/-- Source: the handler returned by `New`, `func(c context.Context, ctx *app.RequestContext)`. -/
def handler (cfg : Options) (extractor : Extractor) (ctx : RequestContext) : Run :=
  match cfg.filterHandler with
  | none => extractAndVerify cfg extractor ctx
  | some filter =>
    match filter ctx with
    | .error p => { trace := [Event.filterHandler], result := .error p }
    | .ok (true, ctx1) => { trace := [Event.filterHandler, Event.next], result := .ok ctx1.Next }
    | .ok (false, ctx1) => Run.after [Event.filterHandler] (extractAndVerify cfg extractor ctx1)

/-- Source: the `switch parts[0]` of `New`, with its default `KeyFromHeader`. -/
def selectExtractor (source name authScheme : GoString) : Extractor :=
  if source = str "query" then KeyFromQuery name
  else if source = str "form" then KeyFromForm name
  else if source = str "param" then KeyFromParam name
  else if source = str "cookie" then KeyFromCookie name
  else KeyFromHeader name authScheme

/-- Source: `func New(opts ...Option) app.HandlerFunc`.  `len(parts) != 2`
is the second case of the match; in the first, `parts[0]` and `parts[1]` are
`source` and `name`. -/
def New (opts : List KeyAuthOption) : Except Panic (RequestContext → Run) :=
  let cfg := NewOptions opts
  let parts := Split cfg.keyLookup colon
  match parts with
  | [source, name] => .ok (handler cfg (selectExtractor source name cfg.authScheme))
  | _ => .error (Panic.error (str "the length of parts should be equal to 2"))

/-! ## Vocabulary of the statements -/

/-- The three terminal actions of the handler: the bypass continuation,
the success handler, the error handler. -/
def Event.isTerminal : Event → Bool
  | .next => true
  | .successHandler => true
  | .errorHandler _ => true
  | _ => false

/-- The filter step lets the request through and leaves it as `ctx1`: no
filter is configured, or the configured one returns `false`. -/
def FilterPasses (cfg : Options) (ctx ctx1 : RequestContext) : Prop :=
  (cfg.filterHandler = none ∧ ctx1 = ctx) ∨
    ∃ f, cfg.filterHandler = some f ∧ f ctx = .ok (false, ctx1)

/-- The calls of the filter step. -/
def filterTrace (cfg : Options) : List Event :=
  match cfg.filterHandler with
  | none => []
  | some _ => [Event.filterHandler]

/-- A request with the given header and nothing else. -/
def requestWithHeader (name value : GoString) : RequestContext where
  header := fun n => if n = name then some value else none
  query := fun _ => none
  postArgs := fun _ => none
  multipartForm := none
  param := fun _ => none
  cookie := fun _ => none
  Keys := fun _ => none
  StatusCode := 200
  Body := []
  aborted := false
  nextCalls := 0


/-- The extractor fails with `ErrMissingOrMalformedAPIKey`. -/
def Fails (r : Except Panic (GoString × error)) : Prop :=
  ∃ k, r = .ok (k, some ErrMissingOrMalformedAPIKey)

/-- The form field `name` of the request holds the value `v`: it is the POST
argument of that name, or, when there is no non-empty POST argument of that
name, the first value of that name in the multipart form. -/
def HoldsFormField (name : GoString) (ctx : RequestContext) (v : GoString) : Prop :=
  ctx.postArgs name = some v ∨
    ((ctx.postArgs name = none ∨ ctx.postArgs name = some []) ∧
      ∃ values rest, ctx.multipartForm = some values ∧ values name = v :: rest)

/-- The field `name` of the request part named by `source` (one of `query`,
`form`, `param`, `cookie`) holds the value `v`; for `form`, the form field
holds `v` and the query string has no non-empty value under that name. -/
def HoldsField (source name : GoString) (ctx : RequestContext) (v : GoString) : Prop :=
  (source = str "query" ∧ ctx.query name = some v) ∨
    (source = str "form" ∧ (ctx.query name = none ∨ ctx.query name = some []) ∧
      HoldsFormField name ctx v) ∨
    (source = str "param" ∧ ctx.param name = some v) ∨
    (source = str "cookie" ∧ ctx.cookie name = some v)

/-- A validator that rejects every key without reporting an error: `return false, nil`. -/
def rejectingValidator : KeyAuthValidatorHandler :=
  fun requestContext _ => .ok ((false, none), requestContext)

/-- The validator of the tests: `return false, ErrMissingOrMalformedAPIKey`. -/
def refusingValidator : KeyAuthValidatorHandler :=
  fun requestContext _ => .ok ((false, some ErrMissingOrMalformedAPIKey), requestContext)

/-- The filter of `example/custom_option/main.go`: `return true`. -/
def skippingFilter : KeyAuthFilterHandler :=
  fun ctx => .ok (true, ctx)

/-- A request with the given route parameter and nothing else. -/
def requestWithParam (name value : GoString) : RequestContext where
  header := fun _ => none
  query := fun _ => none
  postArgs := fun _ => none
  multipartForm := none
  param := fun n => if n = name then some value else none
  cookie := fun _ => none
  Keys := fun _ => none
  StatusCode := 200
  Body := []
  aborted := false
  nextCalls := 0

/-- One call of an option constructor of `option.go`, as the caller writes it
in the argument list of `NewOptions` or `New`. -/
inductive Setting where
  | filter (f : Option KeyAuthFilterHandler)
  | successHandler (f : Option HandlerFunc)
  | errorHandler (f : Option KeyAuthErrorHandler)
  | keyLookUp (lookup authScheme : GoString)
  | validator (f : Option KeyAuthValidatorHandler)
  | contextKey (key : GoString)

/-- The option value that the constructor call builds. -/
def Setting.toOption : Setting → KeyAuthOption
  | .filter f => WithFilter f
  | .successHandler f => WithSuccessHandler f
  | .errorHandler f => WithErrorHandler f
  | .keyLookUp lookup authScheme => WithKeyLookUp lookup authScheme
  | .validator f => WithValidator f
  | .contextKey key => WithContextKey key

/-- The value that `WithFilter` writes to `filterHandler`. -/
def Setting.writesFilterHandler : Setting → Option (Option KeyAuthFilterHandler)
  | .filter f => some f
  | _ => none

/-- The value that `WithSuccessHandler` writes to `successHandler`. -/
def Setting.writesSuccessHandler : Setting → Option (Option HandlerFunc)
  | .successHandler f => some f
  | _ => none

/-- The value that `WithErrorHandler` writes to `errorHandler`. -/
def Setting.writesErrorHandler : Setting → Option (Option KeyAuthErrorHandler)
  | .errorHandler f => some f
  | _ => none

/-- The value that `WithKeyLookUp` writes to `keyLookup`. -/
def Setting.writesKeyLookup : Setting → Option GoString
  | .keyLookUp lookup _ => some lookup
  | _ => none

/-- The value that `WithKeyLookUp` writes to `authScheme`. -/
def Setting.writesAuthScheme : Setting → Option GoString
  | .keyLookUp _ authScheme => some authScheme
  | _ => none

/-- The value that `WithValidator` writes to `validator`. -/
def Setting.writesValidator : Setting → Option (Option KeyAuthValidatorHandler)
  | .validator f => some f
  | _ => none

/-- The value that `WithContextKey` writes to `contextKey`. -/
def Setting.writesContextKey : Setting → Option GoString
  | .contextKey key => some key
  | _ => none

/-- Last write wins, in the words of the specification: the value written by
the last element of the sequence that targets the field (`writes` tells what
an element writes to the field, if it targets it), or `dflt` when no element
targets it. -/
def lastWriteOr {α : Type} (writes : Setting → Option α) (ss : List Setting) (dflt : α) : α :=
  ((ss.reverse.filterMap writes).head?).getD dflt

/-- A request with the given query-string argument and nothing else
(`GET /?name=value`, no body). -/
def requestWithQuery (name value : GoString) : RequestContext where
  header := fun _ => none
  query := fun n => if n = name then some value else none
  postArgs := fun _ => none
  multipartForm := none
  param := fun _ => none
  cookie := fun _ => none
  Keys := fun _ => none
  StatusCode := 200
  Body := []
  aborted := false
  nextCalls := 0

/-- A request with the given query-string argument and the given POST
argument under the same name, and nothing else. -/
def requestWithQueryAndPost (name queryValue postValue : GoString) : RequestContext where
  header := fun _ => none
  query := fun n => if n = name then some queryValue else none
  postArgs := fun n => if n = name then some postValue else none
  multipartForm := none
  param := fun _ => none
  cookie := fun _ => none
  Keys := fun _ => none
  StatusCode := 200
  Body := []
  aborted := false
  nextCalls := 0

/-- An error value other than `ErrMissingOrMalformedAPIKey`, with message `invalid key`. -/
def errInvalidKey : GoError := GoError.other (str "invalid key")

/-! ## Lemmas on the extractors -/

theorem KeyFromHeader_eq (header authScheme : GoString) (c : RequestContext) :
    KeyFromHeader header authScheme c =
      .ok (if 0 < (c.GetHeader header).length ∧ authScheme.length = 0 then
            (c.GetHeader header, none)
          else if authScheme.length + 1 < (c.GetHeader header).length ∧
              (c.GetHeader header).take authScheme.length = authScheme then
            ((c.GetHeader header).drop (authScheme.length + 1), none)
          else ([], some ErrMissingOrMalformedAPIKey)) := by
  unfold KeyFromHeader
  simp only [B2S, sliceTo, sliceFrom, gt_iff_lt]
  by_cases h1 : 0 < (c.GetHeader header).length ∧ authScheme.length = 0
  · rw [if_pos h1, if_pos h1]
  · rw [if_neg h1, if_neg h1]
    by_cases h2 : authScheme.length + 1 < (c.GetHeader header).length
    · rw [if_pos h2, if_pos (by omega)]
      by_cases h3 : (c.GetHeader header).take authScheme.length = authScheme
      · simp only [h3, if_true, and_self, h2]
        rw [if_pos (by omega)]
      · simp only [h3, if_false, and_false]
    · rw [if_neg h2, if_neg (fun h => h2 h.1)]

theorem fieldExtractor_eq (field : Option GoString) :
    (if field.getD [] = [] then
        (.ok ([], some ErrMissingOrMalformedAPIKey) : Except Panic (GoString × error))
      else .ok (field.getD [], none)) =
      match field with
      | none => .ok ([], some ErrMissingOrMalformedAPIKey)
      | some [] => .ok ([], some ErrMissingOrMalformedAPIKey)
      | some (b :: v) => .ok (b :: v, none) := by
  rcases field with _ | v
  · rfl
  · cases v <;> rfl

theorem fieldExtractor_fails_iff (field : Option GoString) :
    Fails (if field.getD [] = [] then
        (.ok ([], some ErrMissingOrMalformedAPIKey) : Except Panic (GoString × error))
      else .ok (field.getD [], none)) ↔ field = none ∨ field = some [] := by
  rw [fieldExtractor_eq]
  rcases field with _ | v
  · simp [Fails]
  · cases v <;> simp [Fails]

theorem fieldExtractor_value (field : Option GoString) (v : GoString)
    (hv : field = some v) (hne : v ≠ []) :
    (if field.getD [] = [] then
        (.ok ([], some ErrMissingOrMalformedAPIKey) : Except Panic (GoString × error))
      else .ok (field.getD [], none)) = .ok (v, none) := by
  subst hv
  simp [hne]

/-! ## Lemmas on `Split` and `New` -/

theorem Split_ne_nil (s : GoString) (sep : Byte) : Split s sep ≠ [] := by
  induction s with
  | nil => simp [Split]
  | cons c cs ih =>
    unfold Split
    split
    · simp
    · split <;> simp

theorem Split_length (s : GoString) (sep : Byte) :
    (Split s sep).length = s.count sep + 1 := by
  induction s with
  | nil => simp [Split]
  | cons c cs ih =>
    unfold Split
    by_cases h : c = sep
    · subst h
      simp [ih]
    · rw [if_neg h, List.count_cons_of_ne (fun e => h e.symm)]
      cases hs : Split cs sep with
      | nil => exact absurd hs (Split_ne_nil cs sep)
      | cons p ps =>
        rw [hs] at ih
        simpa using ih

theorem Split_of_not_mem (s : GoString) (sep : Byte) (h : sep ∉ s) : Split s sep = [s] := by
  induction s with
  | nil => simp [Split]
  | cons c cs ih =>
    have hc : c ≠ sep := fun e => h (by simp [e])
    have hcs : sep ∉ cs := fun e => h (List.mem_cons_of_mem _ e)
    unfold Split
    rw [if_neg hc, ih hcs]

theorem Split_append_sep (a b : GoString) (sep : Byte) (h : sep ∉ a) :
    Split (a ++ sep :: b) sep = a :: Split b sep := by
  induction a with
  | nil => simp [Split]
  | cons c cs ih =>
    have hc : c ≠ sep := fun e => h (by simp [e])
    have hcs : sep ∉ cs := fun e => h (List.mem_cons_of_mem _ e)
    rw [List.cons_append]
    conv_lhs => unfold Split
    rw [if_neg hc, ih hcs]

theorem New_of_parts (opts : List KeyAuthOption) (source name : GoString)
    (h : Split (NewOptions opts).keyLookup colon = [source, name]) :
    New opts =
      .ok (handler (NewOptions opts) (selectExtractor source name (NewOptions opts).authScheme)) := by
  unfold New
  simp only [h]

theorem New_of_length_ne (opts : List KeyAuthOption)
    (h : (Split (NewOptions opts).keyLookup colon).length ≠ 2) :
    New opts = .error (Panic.error (str "the length of parts should be equal to 2")) := by
  unfold New
  dsimp only
  split
  · rename_i source name heq
    rw [heq] at h
    exact absurd rfl h
  · rfl

theorem New_inv (opts : List KeyAuthOption) (h : RequestContext → Run) (hNew : New opts = .ok h) :
    ∃ source name, Split (NewOptions opts).keyLookup colon = [source, name] ∧
      h = handler (NewOptions opts) (selectExtractor source name (NewOptions opts).authScheme) := by
  by_cases hl : (Split (NewOptions opts).keyLookup colon).length = 2
  · obtain ⟨source, name, hp⟩ := List.length_eq_two.mp hl
    refine ⟨source, name, hp, ?_⟩
    rw [New_of_parts opts source name hp] at hNew
    exact (Except.ok.inj hNew).symm
  · rw [New_of_length_ne opts hl] at hNew
    cases hNew

theorem selectExtractor_total (source name authScheme : GoString) (ctx : RequestContext) :
    ∃ r, selectExtractor source name authScheme ctx = .ok r := by
  unfold selectExtractor
  split
  · dsimp only [KeyFromQuery]; split <;> exact ⟨_, rfl⟩
  · split
    · dsimp only [KeyFromForm]; split <;> exact ⟨_, rfl⟩
    · split
      · dsimp only [KeyFromParam]; split <;> exact ⟨_, rfl⟩
      · split
        · dsimp only [KeyFromCookie]; split <;> exact ⟨_, rfl⟩
        · exact ⟨_, KeyFromHeader_eq name authScheme ctx⟩

theorem handler_of_FilterPasses (cfg : Options) (extractor : Extractor)
    (ctx ctx1 : RequestContext) (hf : FilterPasses cfg ctx ctx1) :
    handler cfg extractor ctx =
      Run.after (filterTrace cfg) (extractAndVerify cfg extractor ctx1) := by
  rcases hf with ⟨hnone, rfl⟩ | ⟨f, hsome, hret⟩
  · simp [handler, filterTrace, hnone, Run.after]
  · simp [handler, filterTrace, hsome, hret]

/-! ## Lemmas on the handler -/

theorem extractAndVerify_of_failure (cfg : Options) (extractor : Extractor)
    (ctx : RequestContext) (k : GoString) (e : GoError) (hex : extractor ctx = .ok (k, some e)) :
    extractAndVerify cfg extractor ctx =
      Run.after [Event.extractor] (callErrorHandler cfg ctx (some e)) := by
  simp [extractAndVerify, hex]

theorem extractAndVerify_of_valid (cfg : Options) (extractor : Extractor)
    (ctx ctx2 : RequestContext) (k : GoString) (vf : KeyAuthValidatorHandler)
    (hex : extractor ctx = .ok (k, none)) (hval : cfg.validator = some vf)
    (hret : vf ctx k = .ok ((true, none), ctx2)) :
    extractAndVerify cfg extractor ctx =
      Run.after [Event.extractor, Event.validator k, Event.set cfg.contextKey k]
        (callSuccessHandler cfg (ctx2.Set cfg.contextKey k)) := by
  simp [extractAndVerify, hex, hval, hret]

theorem extractAndVerify_of_invalid (cfg : Options) (extractor : Extractor)
    (ctx ctx2 : RequestContext) (k : GoString) (vf : KeyAuthValidatorHandler)
    (valid : Bool) (err : error)
    (hex : extractor ctx = .ok (k, none)) (hval : cfg.validator = some vf)
    (hret : vf ctx k = .ok ((valid, err), ctx2)) (hno : ¬ (err = none ∧ valid = true)) :
    extractAndVerify cfg extractor ctx =
      Run.after [Event.extractor, Event.validator k] (callErrorHandler cfg ctx2 err) := by
  simp only [extractAndVerify, hex, hval, hret]
  rw [if_neg hno]

theorem callErrorHandler_trace (cfg : Options) (ctx : RequestContext) (err : error) :
    (callErrorHandler cfg ctx err).trace =
      match cfg.errorHandler with
      | none => []
      | some _ => [Event.errorHandler err] := by
  unfold callErrorHandler
  cases cfg.errorHandler <;> rfl

theorem callSuccessHandler_trace (cfg : Options) (ctx : RequestContext) :
    (callSuccessHandler cfg ctx).trace =
      match cfg.successHandler with
      | none => []
      | some _ => [Event.successHandler] := by
  unfold callSuccessHandler
  cases cfg.successHandler <;> rfl

theorem mem_callErrorHandler_trace (cfg : Options) (ctx : RequestContext) (err : error)
    (e : Event) (h : e ∈ (callErrorHandler cfg ctx err).trace) : e = Event.errorHandler err := by
  rw [callErrorHandler_trace] at h
  cases hf : cfg.errorHandler <;> simp [hf] at h
  exact h

theorem mem_callSuccessHandler_trace (cfg : Options) (ctx : RequestContext)
    (e : Event) (h : e ∈ (callSuccessHandler cfg ctx).trace) : e = Event.successHandler := by
  rw [callSuccessHandler_trace] at h
  cases hf : cfg.successHandler <;> simp [hf] at h
  exact h

theorem filterTrace_no_terminal (cfg : Options) :
    (filterTrace cfg).countP Event.isTerminal = 0 := by
  unfold filterTrace
  cases cfg.filterHandler <;> rfl

theorem mem_filterTrace (cfg : Options) (e : Event) (h : e ∈ filterTrace cfg) :
    e = Event.filterHandler := by
  unfold filterTrace at h
  cases hf : cfg.filterHandler <;> simp [hf] at h
  exact h

theorem extractAndVerify_congr (cfg : Options) (ex ex' : Extractor) (ctx : RequestContext)
    (h : ex ctx = ex' ctx) : extractAndVerify cfg ex ctx = extractAndVerify cfg ex' ctx := by
  unfold extractAndVerify
  rw [h]

theorem extractAndVerify_validator_events (cfg : Options) (extractor : Extractor)
    (ctx : RequestContext) (k : GoString) (vf : KeyAuthValidatorHandler)
    (hex : extractor ctx = .ok (k, none)) (hval : cfg.validator = some vf) :
    Event.validator k ∈ (extractAndVerify cfg extractor ctx).trace ∧
      ∀ k', Event.validator k' ∈ (extractAndVerify cfg extractor ctx).trace → k' = k := by
  cases hret : vf ctx k with
  | error p => simp [extractAndVerify, hex, hval, hret]
  | ok r =>
    obtain ⟨⟨valid, err⟩, ctx2⟩ := r
    by_cases hc : err = none ∧ valid = true
    · obtain ⟨rfl, rfl⟩ := hc
      rw [extractAndVerify_of_valid cfg extractor ctx ctx2 k vf hex hval hret]
      refine ⟨by simp [Run.after], fun k' hk' => ?_⟩
      simp only [Run.after, List.mem_append] at hk'
      rcases hk' with hk' | hk'
      · simpa using hk'
      · cases mem_callSuccessHandler_trace _ _ _ hk'
    · rw [extractAndVerify_of_invalid cfg extractor ctx ctx2 k vf valid err hex hval hret hc]
      refine ⟨by simp [Run.after], fun k' hk' => ?_⟩
      simp only [Run.after, List.mem_append] at hk'
      rcases hk' with hk' | hk'
      · simpa using hk'
      · cases mem_callErrorHandler_trace _ _ _ _ hk'

theorem callErrorHandler_terminal (cfg : Options) (ctx : RequestContext) (err : error)
    (herror : cfg.errorHandler ≠ none) :
    (callErrorHandler cfg ctx err).trace.countP Event.isTerminal = 1 := by
  rw [callErrorHandler_trace]
  cases hf : cfg.errorHandler with
  | none => exact absurd hf herror
  | some eh => rfl

theorem callSuccessHandler_terminal (cfg : Options) (ctx : RequestContext)
    (hsuccess : cfg.successHandler ≠ none) :
    (callSuccessHandler cfg ctx).trace.countP Event.isTerminal = 1 := by
  rw [callSuccessHandler_trace]
  cases hf : cfg.successHandler with
  | none => exact absurd hf hsuccess
  | some sh => rfl

theorem callErrorHandler_returns (cfg : Options) (ctx : RequestContext) (err : error)
    (herror : cfg.errorHandler ≠ none)
    (hret : ∀ eh, cfg.errorHandler = some eh → ∀ c e, ∃ r, eh c e = .ok r) :
    ∃ ctx', (callErrorHandler cfg ctx err).result = .ok ctx' := by
  unfold callErrorHandler
  cases hf : cfg.errorHandler with
  | none => exact absurd hf herror
  | some eh => exact hret eh hf ctx err

theorem callSuccessHandler_returns (cfg : Options) (ctx : RequestContext)
    (hsuccess : cfg.successHandler ≠ none)
    (hret : ∀ sh, cfg.successHandler = some sh → ∀ c, ∃ r, sh c = .ok r) :
    ∃ ctx', (callSuccessHandler cfg ctx).result = .ok ctx' := by
  unfold callSuccessHandler
  cases hf : cfg.successHandler with
  | none => exact absurd hf hsuccess
  | some sh => exact hret sh hf ctx

theorem extractAndVerify_terminal (cfg : Options) (extractor : Extractor) (ctx : RequestContext)
    (hex : ∃ r, extractor ctx = .ok r)
    (hvalidator : ∃ vf, cfg.validator = some vf ∧ ∀ c k, ∃ r, vf c k = .ok r)
    (hsuccess : cfg.successHandler ≠ none) (herror : cfg.errorHandler ≠ none) :
    (extractAndVerify cfg extractor ctx).trace.countP Event.isTerminal = 1 ∧
      ((∀ sh, cfg.successHandler = some sh → ∀ c, ∃ r, sh c = .ok r) →
        (∀ eh, cfg.errorHandler = some eh → ∀ c e, ∃ r, eh c e = .ok r) →
        ∃ ctx', (extractAndVerify cfg extractor ctx).result = .ok ctx') := by
  obtain ⟨⟨k, e⟩, hex⟩ := hex
  obtain ⟨vf, hval, hvf⟩ := hvalidator
  cases e with
  | some e =>
    rw [extractAndVerify_of_failure cfg extractor ctx k e hex]
    refine ⟨?_, fun _ hE => callErrorHandler_returns cfg ctx _ herror hE⟩
    simp only [Run.after, List.countP_append, callErrorHandler_terminal cfg ctx _ herror]
    rfl
  | none =>
    obtain ⟨⟨⟨valid, err⟩, ctx2⟩, hret⟩ := hvf ctx k
    by_cases hc : err = none ∧ valid = true
    · obtain ⟨rfl, rfl⟩ := hc
      rw [extractAndVerify_of_valid cfg extractor ctx ctx2 k vf hex hval hret]
      refine ⟨?_, fun hS _ => callSuccessHandler_returns cfg _ hsuccess hS⟩
      simp only [Run.after, List.countP_append, callSuccessHandler_terminal cfg _ hsuccess]
      rfl
    · rw [extractAndVerify_of_invalid cfg extractor ctx ctx2 k vf valid err hex hval hret hc]
      refine ⟨?_, fun _ hE => callErrorHandler_returns cfg ctx2 _ herror hE⟩
      simp only [Run.after, List.countP_append, callErrorHandler_terminal cfg ctx2 _ herror]
      rfl

/-! ## Lemmas for the later claims -/

theorem FormValue_of_query (c : RequestContext) (name v : GoString)
    (hq : c.query name = some v) (hv : v ≠ []) : c.FormValue name = v := by
  have hlen : 0 < v.length := List.length_pos.mpr hv
  unfold RequestContext.FormValue
  simp only [hq, Option.getD_some, gt_iff_lt]
  rw [if_pos hlen]

theorem FormValue_of_post (c : RequestContext) (name v : GoString)
    (hq : c.query name = none ∨ c.query name = some [])
    (hp : c.postArgs name = some v) (hv : v ≠ []) : c.FormValue name = v := by
  have hlen : 0 < v.length := List.length_pos.mpr hv
  have hq0 : (c.query name).getD [] = [] := by
    rcases hq with hq | hq <;> rw [hq] <;> rfl
  unfold RequestContext.FormValue
  simp only [hq0, hp, Option.getD_some, gt_iff_lt, List.length_nil, Nat.lt_irrefl, if_false]
  rw [if_pos hlen]

theorem FormValue_of_multipart (c : RequestContext) (name v : GoString)
    (values : GoString → List GoString) (rest : List GoString)
    (hq : c.query name = none ∨ c.query name = some [])
    (hp : c.postArgs name = none ∨ c.postArgs name = some [])
    (hm : c.multipartForm = some values) (hvalues : values name = v :: rest) :
    c.FormValue name = v := by
  have hq0 : (c.query name).getD [] = [] := by
    rcases hq with hq | hq <;> rw [hq] <;> rfl
  have hp0 : (c.postArgs name).getD [] = [] := by
    rcases hp with hp | hp <;> rw [hp] <;> rfl
  unfold RequestContext.FormValue
  simp only [hq0, hp0, hm, hvalues, gt_iff_lt, List.length_nil, Nat.lt_irrefl, if_false]

theorem FormValue_of_HoldsFormField (c : RequestContext) (name v : GoString)
    (hq : c.query name = none ∨ c.query name = some [])
    (hf : HoldsFormField name c v) (hv : v ≠ []) : c.FormValue name = v := by
  rcases hf with hp | ⟨hp, values, rest, hm, hvalues⟩
  · exact FormValue_of_post c name v hq hp hv
  · exact FormValue_of_multipart c name v values rest hq hp hm hvalues

theorem field_extractors_query_param_cookie (name : GoString) (c : RequestContext) :
    ((Fails (KeyFromQuery name c) ↔ c.query name = none ∨ c.query name = some []) ∧
        ∀ v, c.query name = some v → v ≠ [] → KeyFromQuery name c = .ok (v, none)) ∧
      ((Fails (KeyFromParam name c) ↔ c.param name = none ∨ c.param name = some []) ∧
        ∀ v, c.param name = some v → v ≠ [] → KeyFromParam name c = .ok (v, none)) ∧
      ((Fails (KeyFromCookie name c) ↔ c.cookie name = none ∨ c.cookie name = some []) ∧
        ∀ v, c.cookie name = some v → v ≠ [] → KeyFromCookie name c = .ok (v, none)) :=
  ⟨⟨fieldExtractor_fails_iff (c.query name), fieldExtractor_value (c.query name)⟩,
    ⟨fieldExtractor_fails_iff (c.param name), fieldExtractor_value (c.param name)⟩,
    ⟨fieldExtractor_fails_iff (c.cookie name), fieldExtractor_value (c.cookie name)⟩⟩

theorem KeyFromForm_of_FormValue (name v : GoString) (c : RequestContext)
    (hform : c.FormValue name = v) (hv : v ≠ []) : KeyFromForm name c = .ok (v, none) :=
  fieldExtractor_value (some (c.FormValue name)) v (by rw [hform]) hv

theorem KeyFromHeader_cases (header authScheme : GoString) (c : RequestContext) :
    KeyFromHeader header authScheme c = .ok ([], some ErrMissingOrMalformedAPIKey) ∨
      ∃ k, k ≠ [] ∧ KeyFromHeader header authScheme c = .ok (k, none) := by
  rw [KeyFromHeader_eq]
  by_cases h1 : 0 < (c.GetHeader header).length ∧ authScheme.length = 0
  · rw [if_pos h1]
    exact Or.inr ⟨_, List.length_pos.mp h1.1, rfl⟩
  · rw [if_neg h1]
    by_cases h2 : authScheme.length + 1 < (c.GetHeader header).length ∧
        (c.GetHeader header).take authScheme.length = authScheme
    · rw [if_pos h2]
      refine Or.inr ⟨_, ?_, rfl⟩
      apply List.length_pos.mp
      rw [List.length_drop]
      omega
    · rw [if_neg h2]
      exact Or.inl rfl

theorem fieldExtractor_cases (field : Option GoString) :
    (if field.getD [] = [] then
        (.ok ([], some ErrMissingOrMalformedAPIKey) : Except Panic (GoString × error))
      else .ok (field.getD [], none)) = .ok ([], some ErrMissingOrMalformedAPIKey) ∨
      ∃ k, k ≠ [] ∧
        (if field.getD [] = [] then
          (.ok ([], some ErrMissingOrMalformedAPIKey) : Except Panic (GoString × error))
        else .ok (field.getD [], none)) = .ok (k, none) := by
  by_cases h : field.getD [] = []
  · rw [if_pos h]
    exact Or.inl rfl
  · rw [if_neg h]
    exact Or.inr ⟨_, h, rfl⟩

theorem selectExtractor_cases (source name authScheme : GoString) (c : RequestContext) :
    selectExtractor source name authScheme c = .ok ([], some ErrMissingOrMalformedAPIKey) ∨
      ∃ k, k ≠ [] ∧ selectExtractor source name authScheme c = .ok (k, none) := by
  unfold selectExtractor
  split
  · exact fieldExtractor_cases (c.query name)
  · split
    · exact fieldExtractor_cases (some (c.FormValue name))
    · split
      · exact fieldExtractor_cases (c.param name)
      · split
        · exact fieldExtractor_cases (c.cookie name)
        · exact KeyFromHeader_cases name authScheme c

theorem selectExtractor_key_ne_nil (source name authScheme k : GoString) (c : RequestContext)
    (h : selectExtractor source name authScheme c = .ok (k, none)) : k ≠ [] := by
  rcases selectExtractor_cases source name authScheme c with h' | ⟨k', hk', h'⟩
  · rw [h'] at h
    cases h
  · rw [h'] at h
    cases h
    exact hk'

theorem selectExtractor_error (source name authScheme k : GoString) (e : GoError)
    (c : RequestContext) (h : selectExtractor source name authScheme c = .ok (k, some e)) :
    e = ErrMissingOrMalformedAPIKey := by
  rcases selectExtractor_cases source name authScheme c with h' | ⟨k', -, h'⟩
  · rw [h'] at h
    cases h
    rfl
  · rw [h'] at h
    cases h

theorem selectExtractor_of_unknown (source name authScheme : GoString)
    (h1 : source ≠ str "query") (h2 : source ≠ str "form")
    (h3 : source ≠ str "param") (h4 : source ≠ str "cookie") :
    selectExtractor source name authScheme = KeyFromHeader name authScheme := by
  unfold selectExtractor
  rw [if_neg h1, if_neg h2, if_neg h3, if_neg h4]

theorem KeyFromHeader_of_scheme_space (name s k : GoString) (c : RequestContext)
    (hs : s ≠ []) (hk : k ≠ []) (hv : c.header name = some (s ++ space :: k)) :
    KeyFromHeader name s c = .ok (k, none) := by
  have hget : c.GetHeader name = s ++ space :: k := by
    simp [RequestContext.GetHeader, hv]
  have hs0 : s.length ≠ 0 := fun h => hs (List.length_eq_zero.mp h)
  have hk0 : k.length ≠ 0 := fun h => hk (List.length_eq_zero.mp h)
  have hd : (s ++ space :: k).drop (s.length + 1) = k := by
    rw [show s ++ space :: k = (s ++ [space]) ++ k by simp]
    exact List.drop_left' (by simp)
  have hlen : s.length + 1 < (s ++ space :: k).length := by
    simp only [List.length_append, List.length_cons]
    omega
  rw [KeyFromHeader_eq, hget, if_neg (fun h => hs0 h.2), if_pos ⟨hlen, by simp⟩, hd]

theorem Run_after_after (a b : List Event) (r : Run) :
    Run.after a (Run.after b r) = Run.after (a ++ b) r := by
  simp [Run.after]

theorem extractAndVerify_key_event (cfg : Options) (extractor : Extractor)
    (ctx : RequestContext) (k : GoString)
    (h : Event.validator k ∈ (extractAndVerify cfg extractor ctx).trace ∨
      ∃ ck, Event.set ck k ∈ (extractAndVerify cfg extractor ctx).trace) :
    extractor ctx = .ok (k, none) := by
  cases hex : extractor ctx with
  | error p =>
    simp [extractAndVerify, hex] at h
  | ok r =>
    obtain ⟨k0, e⟩ := r
    cases e with
    | some e =>
      rw [extractAndVerify_of_failure cfg extractor ctx k0 e hex] at h
      simp only [Run.after, List.mem_append, List.mem_singleton] at h
      rcases h with (h | h) | ⟨ck, h | h⟩
      · cases h
      · cases mem_callErrorHandler_trace _ _ _ _ h
      · cases h
      · cases mem_callErrorHandler_trace _ _ _ _ h
    | none =>
      cases hval : cfg.validator with
      | none => simp [extractAndVerify, hex, hval] at h
      | some vf =>
        cases hret : vf ctx k0 with
        | error p =>
          simp [extractAndVerify, hex, hval, hret] at h
          rw [h]
        | ok r =>
          obtain ⟨⟨valid, err⟩, ctx2⟩ := r
          by_cases hc : err = none ∧ valid = true
          · obtain ⟨rfl, rfl⟩ := hc
            rw [extractAndVerify_of_valid cfg extractor ctx ctx2 k0 vf hex hval hret] at h
            simp only [Run.after, List.mem_append] at h
            rcases h with (h | h) | ⟨ck, h | h⟩
            · simp at h
              rw [h]
            · cases mem_callSuccessHandler_trace _ _ _ h
            · simp at h
              rw [h.2]
            · cases mem_callSuccessHandler_trace _ _ _ h
          · rw [extractAndVerify_of_invalid cfg extractor ctx ctx2 k0 vf valid err hex hval
              hret hc] at h
            simp only [Run.after, List.mem_append] at h
            rcases h with (h | h) | ⟨ck, h | h⟩
            · simp at h
              rw [h]
            · cases mem_callErrorHandler_trace _ _ _ _ h
            · simp at h
            · cases mem_callErrorHandler_trace _ _ _ _ h

theorem handler_key_event (cfg : Options) (extractor : Extractor)
    (ctx : RequestContext) (k : GoString)
    (h : Event.validator k ∈ (handler cfg extractor ctx).trace ∨
      ∃ ck, Event.set ck k ∈ (handler cfg extractor ctx).trace) :
    ∃ ctx1, extractor ctx1 = .ok (k, none) := by
  cases hf : cfg.filterHandler with
  | none =>
    rw [handler_of_FilterPasses cfg extractor ctx ctx (Or.inl ⟨hf, rfl⟩)] at h
    refine ⟨ctx, extractAndVerify_key_event cfg extractor ctx k ?_⟩
    simp only [Run.after, List.mem_append] at h
    rcases h with (h | h) | ⟨ck, h | h⟩
    · cases mem_filterTrace _ _ h
    · exact Or.inl h
    · cases mem_filterTrace _ _ h
    · exact Or.inr ⟨ck, h⟩
  | some f =>
    cases hret : f ctx with
    | error p => simp [handler, hf, hret] at h
    | ok r =>
      obtain ⟨b, ctx1⟩ := r
      cases b with
      | true => simp [handler, hf, hret] at h
      | false =>
        rw [handler_of_FilterPasses cfg extractor ctx ctx1 (Or.inr ⟨f, hf, hret⟩)] at h
        refine ⟨ctx1, extractAndVerify_key_event cfg extractor ctx1 k ?_⟩
        simp only [Run.after, List.mem_append] at h
        rcases h with (h | h) | ⟨ck, h | h⟩
        · cases mem_filterTrace _ _ h
        · exact Or.inl h
        · cases mem_filterTrace _ _ h
        · exact Or.inr ⟨ck, h⟩

/-! ## Lemmas on the options -/

theorem lastWriteOr_cons {α : Type} (writes : Setting → Option α) (s : Setting)
    (t : List Setting) (dflt : α) :
    lastWriteOr writes (s :: t) dflt = lastWriteOr writes t ((writes s).getD dflt) := by
  unfold lastWriteOr
  rw [List.reverse_cons, List.filterMap_append]
  cases h : t.reverse.filterMap writes with
  | nil =>
    cases hw : writes s <;> simp [List.filterMap, hw]
  | cons a l => simp

theorem Apply_lastWrite {α : Type} (proj : Options → α) (writes : Setting → Option α)
    (hstep : ∀ s o, proj (s.toOption.F o) = (writes s).getD (proj o))
    (ss : List Setting) (o : Options) :
    proj (o.Apply (ss.map Setting.toOption)) = lastWriteOr writes ss (proj o) := by
  induction ss generalizing o with
  | nil => rfl
  | cons s t ih =>
    rw [lastWriteOr_cons, ← hstep s o, ← ih (s.toOption.F o)]
    rfl

theorem Apply_append_singleton (o : Options) (opts : List KeyAuthOption) (op : KeyAuthOption) :
    o.Apply (opts ++ [op]) = op.F (o.Apply opts) := by
  simp [Options.Apply, List.foldl_append]

/-! ## Claims on the extractors -/

/-- C1 (the code departs from the claim): with scheme `Bearer`, the header value
`BearerXabc` does not start with the scheme followed by a space, and yet the
extractor of `KeyFromHeader` returns the key `abc` with a nil error: the byte
after the scheme is dropped without being compared with a space. -/
theorem C1_KeyFromHeader_separator_unchecked :
    ¬ (str "Bearer" ++ [space]) <+: str "BearerXabc" ∧
      KeyFromHeader (str "Authorization") (str "Bearer")
          (requestWithHeader (str "Authorization") (str "BearerXabc")) =
        .ok (str "abc", none) := by
  constructor
  · decide
  · rfl

/-- C3: round trip of header extraction: for every header name, every
non-empty scheme `s` and every non-empty key `k`, on a request whose header
holds `s`, one space and `k`, the extractor of `KeyFromHeader name s` returns
exactly `k` with a nil error. -/
theorem C3_KeyFromHeader_roundtrip (name s k : GoString) (c : RequestContext)
    (hs : s ≠ []) (hk : k ≠ []) (hv : c.header name = some (s ++ space :: k)) :
    KeyFromHeader name s c = .ok (k, none) := by
  have hget : c.GetHeader name = s ++ space :: k := by
    simp [RequestContext.GetHeader, hv]
  have hs0 : s.length ≠ 0 := fun h => hs (List.length_eq_zero.mp h)
  have hk0 : k.length ≠ 0 := fun h => hk (List.length_eq_zero.mp h)
  rw [KeyFromHeader_eq, hget]
  rw [if_neg (fun h => hs0 h.2), if_pos]
  · have hd : (s ++ space :: k).drop (s.length + 1) = k := by
      rw [show s ++ space :: k = (s ++ [space]) ++ k by simp]
      exact List.drop_left' (by simp)
    rw [hd]
  · refine ⟨?_, by simp⟩
    simp only [List.length_append, List.length_cons]
    omega

/-- Witness of C3: scheme `Bearer`, header value `Bearer valid-key`, key `valid-key`. -/
theorem C3_KeyFromHeader_roundtrip_witness :
    str "Bearer valid-key" = str "Bearer" ++ space :: str "valid-key" ∧
      KeyFromHeader (str "Authorization") (str "Bearer")
          (requestWithHeader (str "Authorization") (str "Bearer valid-key")) =
        .ok (str "valid-key", none) :=
  ⟨by decide,
    C3_KeyFromHeader_roundtrip (str "Authorization") (str "Bearer") (str "valid-key")
      (requestWithHeader (str "Authorization") (str "Bearer valid-key"))
      (by decide) (by decide) (by decide)⟩

/-- C4: with the empty scheme, the extractor of `KeyFromHeader name ""`
returns the whole header value, unchanged and with a nil error, when that
value is non-empty, and fails with `ErrMissingOrMalformedAPIKey` when the
header is absent or empty. -/
theorem C4_KeyFromHeader_empty_scheme (name : GoString) (c : RequestContext) :
    (∀ v, c.header name = some v → v ≠ [] → KeyFromHeader name [] c = .ok (v, none)) ∧
      (c.header name = none ∨ c.header name = some [] →
        KeyFromHeader name [] c = .ok ([], some ErrMissingOrMalformedAPIKey)) := by
  constructor
  · intro v hv hne
    have hget : c.GetHeader name = v := by simp [RequestContext.GetHeader, hv]
    have hv0 : 0 < v.length := List.length_pos.mpr hne
    rw [KeyFromHeader_eq, hget, if_pos ⟨hv0, rfl⟩]
  · intro h
    have hget : c.GetHeader name = [] := by
      rcases h with h | h <;> simp [RequestContext.GetHeader, h]
    rw [KeyFromHeader_eq, hget]
    simp

/-- Witness of C4: the header value `xyz` is the key; a request without the
header is refused. -/
theorem C4_KeyFromHeader_empty_scheme_witness :
    KeyFromHeader (str "X-Key") [] (requestWithHeader (str "X-Key") (str "xyz")) =
        .ok (str "xyz", none) ∧
      KeyFromHeader (str "X-Key") [] (requestWithHeader (str "Other") (str "xyz")) =
        .ok ([], some ErrMissingOrMalformedAPIKey) :=
  ⟨(C4_KeyFromHeader_empty_scheme (str "X-Key")
      (requestWithHeader (str "X-Key") (str "xyz"))).1 (str "xyz") (by decide) (by decide),
    (C4_KeyFromHeader_empty_scheme (str "X-Key")
      (requestWithHeader (str "Other") (str "xyz"))).2 (Or.inl (by decide))⟩

/-- C5 (the code departs from the claim): the request `GET /?token=abc` has no
form field `token` at all (no POST argument, no multipart form), and yet the
extractor of `KeyFromForm("token")` does not fail: it returns the value `abc`
of the query string with a nil error, since `ctx.FormValue` searches the query
string first. -/
theorem C5_KeyFromForm_reads_query_string :
    (requestWithQuery (str "token") (str "abc")).postArgs (str "token") = none ∧
      (requestWithQuery (str "token") (str "abc")).multipartForm = none ∧
      KeyFromForm (str "token") (requestWithQuery (str "token") (str "abc")) =
        .ok (str "abc", none) ∧
      ¬ Fails (KeyFromForm (str "token") (requestWithQuery (str "token") (str "abc"))) := by
  have hrun : KeyFromForm (str "token") (requestWithQuery (str "token") (str "abc")) =
      .ok (str "abc", none) := rfl
  refine ⟨rfl, rfl, hrun, ?_⟩
  rintro ⟨k, hk⟩
  rw [hrun] at hk
  cases hk

/-! ## Claims on the middleware -/

/-- C2 (the code departs from the claim): with the default error handler and a
validator that returns `(false, nil)`, the handler built by `New`, run on a
request with header `Authorization: Bearer valid-key`, extracts the key, calls
the validator, calls the error handler with the nil error, and there panics
on `err.Error()`: the request is not aborted with status 401. -/
theorem C2_default_errorHandler_nil_error_panics :
    ∃ h, New [WithValidator (some rejectingValidator)] = .ok h ∧
      (h (requestWithHeader (str "Authorization") (str "Bearer valid-key"))).trace =
        [Event.extractor, Event.validator (str "valid-key"), Event.errorHandler none] ∧
      (h (requestWithHeader (str "Authorization") (str "Bearer valid-key"))).result =
        .error Panic.nilDereference :=
  ⟨handler (NewOptions [WithValidator (some rejectingValidator)])
      (selectExtractor (str "header") (str "Authorization") (str "Bearer")),
    New_of_parts _ _ _ (by decide), rfl, rfl⟩

/-- C7: for every configured lookup spec, `New` panics at setup if and only
if splitting the spec on `:` does not yield exactly two parts, that is, if and
only if the spec does not hold exactly one colon; `onlyoneword` and `a:b:c`
both fail, and the default `header:Authorization` yields a handler. -/
theorem C7_New_fails_iff_not_two_parts (opts : List KeyAuthOption) :
    ((∃ p, New opts = .error p) ↔ (Split (NewOptions opts).keyLookup colon).length ≠ 2) ∧
      ((∃ h, New opts = .ok h) ↔ (NewOptions opts).keyLookup.count colon = 1) ∧
      (∀ scheme, ∃ p, New [WithKeyLookUp (str "onlyoneword") scheme] = .error p) ∧
      (∀ scheme, ∃ p, New [WithKeyLookUp (str "a:b:c") scheme] = .error p) ∧
      (∃ h, New [] = .ok h) := by
  have hiff : (∃ h, New opts = .ok h) ↔
      (Split (NewOptions opts).keyLookup colon).length = 2 := by
    constructor
    · rintro ⟨h, hh⟩
      obtain ⟨source, name, hp, -⟩ := New_inv opts h hh
      rw [hp]
      rfl
    · intro hl
      obtain ⟨source, name, hp⟩ := List.length_eq_two.mp hl
      exact ⟨_, New_of_parts opts source name hp⟩
  refine ⟨?_, ?_, ?_, ?_, ?_⟩
  · constructor
    · rintro ⟨p, hp⟩ hl
      obtain ⟨h, hh⟩ := hiff.mpr hl
      rw [hh] at hp
      cases hp
    · intro hl
      exact ⟨_, New_of_length_ne opts hl⟩
  · rw [hiff, Split_length]
    omega
  · intro scheme
    refine ⟨_, New_of_length_ne _ ?_⟩
    show (Split (str "onlyoneword") colon).length ≠ 2
    decide
  · intro scheme
    refine ⟨_, New_of_length_ne _ ?_⟩
    show (Split (str "a:b:c") colon).length ≠ 2
    decide
  · exact ⟨_, New_of_parts [] (str "header") (str "Authorization") (by decide)⟩

/-- C10: when a filter handler is configured and returns `true` for a
request, the handler built by `New` calls the filter and then the continuation
`ctx.Next`, and nothing else: no extractor, validator, success handler or
error handler call, no `ctx.Set`; the key-value store is the one the filter
call left, and the context key is not written. -/
theorem C10_filter_true_bypasses (opts : List KeyAuthOption) (h : RequestContext → Run)
    (f : KeyAuthFilterHandler) (ctx ctx1 : RequestContext)
    (hNew : New opts = .ok h)
    (hfilter : (NewOptions opts).filterHandler = some f)
    (hret : f ctx = .ok (true, ctx1)) :
    h ctx = { trace := [Event.filterHandler, Event.next], result := .ok ctx1.Next } ∧
      ctx1.Next.Keys = ctx1.Keys ∧
      ctx1.Next.Get (NewOptions opts).contextKey = ctx1.Get (NewOptions opts).contextKey ∧
      ctx1.Next.nextCalls = ctx1.nextCalls + 1 := by
  obtain ⟨source, name, -, rfl⟩ := New_inv opts h hNew
  refine ⟨?_, rfl, rfl, rfl⟩
  simp [handler, hfilter, hret]

/-- Witness of C10: the configuration of `example/custom_option/main.go`
(lookup `query:token`, a filter that returns `true`). -/
theorem C10_filter_true_bypasses_witness :
    ∃ h, New [WithContextKey (str "token"), WithKeyLookUp (str "query:token") [],
          WithFilter (some skippingFilter)] = .ok h ∧
      h (requestWithHeader (str "Authorization") (str "Bearer valid-key")) =
        { trace := [Event.filterHandler, Event.next],
          result := .ok (requestWithHeader (str "Authorization") (str "Bearer valid-key")).Next } :=
  ⟨handler (NewOptions [WithContextKey (str "token"), WithKeyLookUp (str "query:token") [],
        WithFilter (some skippingFilter)]) (selectExtractor (str "query") (str "token") []),
    New_of_parts _ _ _ (by decide),
    (C10_filter_true_bypasses
      [WithContextKey (str "token"), WithKeyLookUp (str "query:token") [],
        WithFilter (some skippingFilter)] _ skippingFilter
      (requestWithHeader (str "Authorization") (str "Bearer valid-key")) _
      (New_of_parts _ (str "query") (str "token") (by decide)) rfl rfl).1⟩

/-- C9: for every request that passes the filter step and every key `k` that
the bound extractor extracts from it, with `(valid, err)` the result of the
validator on `k`: if `err` is nil and `valid` is true the handler built by
`New` stores the key and calls the success handler; in every other case it
calls the error handler with `err` itself (nil when the validator returned
nil) on the context the validator left; the success handler is called only in
the first case, and the error handler only in the others and only with `err`. -/
theorem C9_success_iff_nil_error_and_valid (opts : List KeyAuthOption)
    (source name k : GoString) (ctx ctx1 ctx2 : RequestContext)
    (vf : KeyAuthValidatorHandler) (valid : Bool) (err : error)
    (hparts : Split (NewOptions opts).keyLookup colon = [source, name])
    (hfilter : FilterPasses (NewOptions opts) ctx ctx1)
    (hkey : selectExtractor source name (NewOptions opts).authScheme ctx1 = .ok (k, none))
    (hval : (NewOptions opts).validator = some vf)
    (hret : vf ctx1 k = .ok ((valid, err), ctx2)) :
    ∃ h, New opts = .ok h ∧
      (err = none ∧ valid = true →
        h ctx = Run.after
          (filterTrace (NewOptions opts) ++
            [Event.extractor, Event.validator k, Event.set (NewOptions opts).contextKey k])
          (callSuccessHandler (NewOptions opts) (ctx2.Set (NewOptions opts).contextKey k))) ∧
      (¬ (err = none ∧ valid = true) →
        h ctx = Run.after
          (filterTrace (NewOptions opts) ++ [Event.extractor, Event.validator k])
          (callErrorHandler (NewOptions opts) ctx2 err)) ∧
      (Event.successHandler ∈ (h ctx).trace → err = none ∧ valid = true) ∧
      (∀ e, Event.errorHandler e ∈ (h ctx).trace → e = err ∧ ¬ (err = none ∧ valid = true)) := by
  refine ⟨_, New_of_parts opts source name hparts, ?_⟩
  rw [handler_of_FilterPasses _ _ ctx ctx1 hfilter]
  by_cases hc : err = none ∧ valid = true
  · obtain ⟨rfl, rfl⟩ := hc
    rw [extractAndVerify_of_valid _ _ ctx1 ctx2 k vf hkey hval hret]
    refine ⟨fun _ => ?_, fun hno => absurd ⟨rfl, rfl⟩ hno, fun _ => ⟨rfl, rfl⟩, ?_⟩
    · simp [Run.after]
    · intro e he
      simp only [Run.after, List.mem_append] at he
      rcases he with he | he | he
      · cases mem_filterTrace _ _ he
      · simp at he
      · cases mem_callSuccessHandler_trace _ _ _ he
  · rw [extractAndVerify_of_invalid _ _ ctx1 ctx2 k vf valid err hkey hval hret hc]
    refine ⟨fun hyes => absurd hyes hc, fun _ => ?_, ?_, ?_⟩
    · simp [Run.after]
    · intro he
      simp only [Run.after, List.mem_append] at he
      rcases he with he | he | he
      · cases mem_filterTrace _ _ he
      · simp at he
      · cases mem_callErrorHandler_trace _ _ _ _ he
    · intro e he
      simp only [Run.after, List.mem_append] at he
      rcases he with he | he | he
      · cases mem_filterTrace _ _ he
      · simp at he
      · exact ⟨Event.errorHandler.inj (mem_callErrorHandler_trace _ _ _ _ he), hc⟩

/-- Witness of C9: the validator of the tests returns
`(false, ErrMissingOrMalformedAPIKey)` on the key of `Authorization: Bearer valid-key`;
the error handler is called with that error and the success handler is not. -/
theorem C9_success_iff_nil_error_and_valid_witness :
    ∃ h, New [WithValidator (some refusingValidator)] = .ok h ∧
      (h (requestWithHeader (str "Authorization") (str "Bearer valid-key"))).trace =
        [Event.extractor, Event.validator (str "valid-key"),
          Event.errorHandler (some ErrMissingOrMalformedAPIKey)] ∧
      Event.successHandler ∉
        (h (requestWithHeader (str "Authorization") (str "Bearer valid-key"))).trace := by
  obtain ⟨h, hNew, -, hB, hC, -⟩ :=
    C9_success_iff_nil_error_and_valid [WithValidator (some refusingValidator)]
      (str "header") (str "Authorization") (str "valid-key")
      (requestWithHeader (str "Authorization") (str "Bearer valid-key"))
      (requestWithHeader (str "Authorization") (str "Bearer valid-key"))
      (requestWithHeader (str "Authorization") (str "Bearer valid-key"))
      refusingValidator false (some ErrMissingOrMalformedAPIKey)
      (by decide) (Or.inl ⟨rfl, rfl⟩) rfl rfl rfl
  refine ⟨h, hNew, ?_, fun hmem => ?_⟩
  · rw [hB (by decide)]
    rfl
  · exact absurd (hC hmem).2 (by decide)

/-- C6 (the claim fails): with the filter of the example, which returns
`true`, the request `GET /?token=abc` under lookup `query:token` ends after the
continuation and no validator call is made; with a nil validator the handler
panics after the extractor call; and under lookup `form:token`, on a request
whose POST argument `token` is `fromform` and whose query string holds
`token=fromquery`, the validator receives `fromquery`. -/
theorem C6_non_header_sources_pass_value_counterexample :
    (∃ h, New [WithKeyLookUp (str "query:token") [], WithFilter (some skippingFilter)] = .ok h ∧
        (requestWithQuery (str "token") (str "abc")).query (str "token") = some (str "abc") ∧
        (h (requestWithQuery (str "token") (str "abc"))).trace =
          [Event.filterHandler, Event.next]) ∧
      (∃ h, New [WithKeyLookUp (str "query:token") [], WithValidator none] = .ok h ∧
        (h (requestWithQuery (str "token") (str "abc"))).trace = [Event.extractor] ∧
        (h (requestWithQuery (str "token") (str "abc"))).result =
          .error Panic.nilFuncCall) ∧
      (∃ h, New [WithKeyLookUp (str "form:token") (str "Bearer"),
            WithValidator (some refusingValidator)] = .ok h ∧
        (requestWithQueryAndPost (str "token") (str "fromquery") (str "fromform")).postArgs
          (str "token") = some (str "fromform") ∧
        (h (requestWithQueryAndPost (str "token") (str "fromquery") (str "fromform"))).trace =
          [Event.extractor, Event.validator (str "fromquery"),
            Event.errorHandler (some ErrMissingOrMalformedAPIKey)]) :=
  ⟨⟨handler (NewOptions [WithKeyLookUp (str "query:token") [], WithFilter (some skippingFilter)])
        (selectExtractor (str "query") (str "token") []),
      New_of_parts _ _ _ (by decide), by decide, rfl⟩,
    ⟨handler (NewOptions [WithKeyLookUp (str "query:token") [], WithValidator none])
        (selectExtractor (str "query") (str "token") []),
      New_of_parts _ _ _ (by decide), rfl, rfl⟩,
    ⟨handler (NewOptions [WithKeyLookUp (str "form:token") (str "Bearer"),
          WithValidator (some refusingValidator)])
        (selectExtractor (str "form") (str "token") (str "Bearer")),
      New_of_parts _ _ _ (by decide), by decide, rfl⟩⟩

/-- C6 as amended: for every lookup spec `<source>:<name>` whose source is
`query`, `form`, `param` or `cookie` (and whose name holds no colon), every
auth scheme, every configuration with a validator set, and every request that
passes the filter step (no filter, or a filter that returns `false`) with the
field `<name>` of that source holding a non-empty value `v` (for `form`: the
form field holds `v` and the query string has no non-empty value under
`<name>`): `New` yields a handler, and that handler runs as if the extractor
had returned `v` itself with a nil error, so the validator is called with
exactly `v` and with no other key; the auth scheme plays no part. -/
theorem C6_non_header_sources_pass_value (opts : List KeyAuthOption)
    (source name v : GoString) (vf : KeyAuthValidatorHandler) (ctx ctx1 : RequestContext)
    (hlookup : (NewOptions opts).keyLookup = source ++ colon :: name)
    (hname : colon ∉ name)
    (hfield : HoldsField source name ctx1 v) (hv : v ≠ [])
    (hfilter : FilterPasses (NewOptions opts) ctx ctx1)
    (hval : (NewOptions opts).validator = some vf) :
    ∃ h, New opts = .ok h ∧
      h ctx = Run.after (filterTrace (NewOptions opts))
        (extractAndVerify (NewOptions opts) (fun _ => .ok (v, none)) ctx1) ∧
      Event.validator v ∈ (h ctx).trace ∧
      ∀ k, Event.validator k ∈ (h ctx).trace → k = v := by
  have hsource : colon ∉ source := by
    rcases hfield with ⟨rfl, -⟩ | ⟨rfl, -⟩ | ⟨rfl, -⟩ | ⟨rfl, -⟩ <;> decide
  have hparts : Split (NewOptions opts).keyLookup colon = [source, name] := by
    rw [hlookup, Split_append_sep source name colon hsource, Split_of_not_mem name colon hname]
  have hex : selectExtractor source name (NewOptions opts).authScheme ctx1 = .ok (v, none) := by
    rcases hfield with ⟨rfl, hf⟩ | ⟨rfl, hf⟩ | ⟨rfl, hf⟩ | ⟨rfl, hf⟩
    · unfold selectExtractor
      rw [if_pos rfl]
      exact fieldExtractor_value _ v hf hv
    · unfold selectExtractor
      rw [if_neg (by decide), if_pos rfl]
      exact KeyFromForm_of_FormValue name v ctx1
        (FormValue_of_HoldsFormField ctx1 name v hf.1 hf.2 hv) hv
    · unfold selectExtractor
      rw [if_neg (by decide), if_neg (by decide), if_pos rfl]
      exact fieldExtractor_value _ v hf hv
    · unfold selectExtractor
      rw [if_neg (by decide), if_neg (by decide), if_neg (by decide), if_pos rfl]
      exact fieldExtractor_value _ v hf hv
  have hrun : handler (NewOptions opts)
        (selectExtractor source name (NewOptions opts).authScheme) ctx =
      Run.after (filterTrace (NewOptions opts))
        (extractAndVerify (NewOptions opts) (fun _ => .ok (v, none)) ctx1) := by
    rw [handler_of_FilterPasses _ _ ctx ctx1 hfilter]
    rw [extractAndVerify_congr _ _ (fun _ => .ok (v, none)) ctx1 hex]
  have hev := extractAndVerify_validator_events (NewOptions opts) (fun _ => .ok (v, none))
    ctx1 v vf rfl hval
  refine ⟨_, New_of_parts opts source name hparts, hrun, ?_, ?_⟩
  · rw [hrun]
    simp only [Run.after, List.mem_append]
    exact Or.inr hev.1
  · intro k hk
    rw [hrun] at hk
    simp only [Run.after, List.mem_append] at hk
    rcases hk with hk | hk
    · cases mem_filterTrace _ _ hk
    · exact hev.2 k hk

/-- Witness of C6: lookup `param:Authorization`, scheme `Bearer`, route
parameter `Authorization = valid-key`: the validator receives `valid-key`. -/
theorem C6_non_header_sources_pass_value_witness :
    ∃ h, New [WithValidator (some refusingValidator),
          WithKeyLookUp (str "param:Authorization") (str "Bearer")] = .ok h ∧
      Event.validator (str "valid-key") ∈
        (h (requestWithParam (str "Authorization") (str "valid-key"))).trace := by
  obtain ⟨h, hNew, -, hmem, -⟩ :=
    C6_non_header_sources_pass_value
      [WithValidator (some refusingValidator),
        WithKeyLookUp (str "param:Authorization") (str "Bearer")]
      (str "param") (str "Authorization") (str "valid-key") refusingValidator
      (requestWithParam (str "Authorization") (str "valid-key"))
      (requestWithParam (str "Authorization") (str "valid-key"))
      (by decide) (by decide) (Or.inr (Or.inr (Or.inl ⟨rfl, by decide⟩))) (by decide)
      (Or.inl ⟨rfl, rfl⟩) rfl
  exact ⟨h, hNew, hmem⟩

/-- C8: for every configuration with a valid lookup spec and every request,
when the filter (if any) and the validator return normally and the success and
error handlers are set, one run of the handler built by `New` makes exactly
one of the three terminal calls (the continuation of the filter branch, the
success handler, the error handler); when the success and error handlers
return normally too, so does the handler. -/
theorem C8_exactly_one_terminal_action (opts : List KeyAuthOption) (h : RequestContext → Run)
    (ctx : RequestContext)
    (hNew : New opts = .ok h)
    (hfilter : ∀ f, (NewOptions opts).filterHandler = some f → ∀ c, ∃ r, f c = .ok r)
    (hvalidator : ∃ vf, (NewOptions opts).validator = some vf ∧ ∀ c k, ∃ r, vf c k = .ok r)
    (hsuccess : (NewOptions opts).successHandler ≠ none)
    (herror : (NewOptions opts).errorHandler ≠ none) :
    (h ctx).trace.countP Event.isTerminal = 1 ∧
      ((∀ sh, (NewOptions opts).successHandler = some sh → ∀ c, ∃ r, sh c = .ok r) →
        (∀ eh, (NewOptions opts).errorHandler = some eh → ∀ c e, ∃ r, eh c e = .ok r) →
        ∃ ctx', (h ctx).result = .ok ctx') := by
  obtain ⟨source, name, -, rfl⟩ := New_inv opts h hNew
  cases hf : (NewOptions opts).filterHandler with
  | none =>
    have hrun := handler_of_FilterPasses (NewOptions opts)
      (selectExtractor source name (NewOptions opts).authScheme) ctx ctx (Or.inl ⟨hf, rfl⟩)
    have hT := extractAndVerify_terminal (NewOptions opts)
      (selectExtractor source name (NewOptions opts).authScheme) ctx
      (selectExtractor_total _ _ _ _) hvalidator hsuccess herror
    rw [hrun]
    refine ⟨?_, hT.2⟩
    simp only [Run.after, List.countP_append, filterTrace_no_terminal, hT.1]
  | some f =>
    obtain ⟨⟨b, ctx1⟩, hret⟩ := hfilter f hf ctx
    cases b with
    | true =>
      have hrun : handler (NewOptions opts)
          (selectExtractor source name (NewOptions opts).authScheme) ctx =
          { trace := [Event.filterHandler, Event.next], result := .ok ctx1.Next } := by
        simp [handler, hf, hret]
      rw [hrun]
      exact ⟨rfl, fun _ _ => ⟨_, rfl⟩⟩
    | false =>
      have hrun := handler_of_FilterPasses (NewOptions opts)
        (selectExtractor source name (NewOptions opts).authScheme) ctx ctx1
        (Or.inr ⟨f, hf, hret⟩)
      have hT := extractAndVerify_terminal (NewOptions opts)
        (selectExtractor source name (NewOptions opts).authScheme) ctx1
        (selectExtractor_total _ _ _ _) hvalidator hsuccess herror
      rw [hrun]
      refine ⟨?_, hT.2⟩
      simp only [Run.after, List.countP_append, filterTrace_no_terminal, hT.1]

/-- Witness of C8: the default configuration on a request with header
`Authorization: Bearer valid-key` makes exactly one terminal call. -/
theorem C8_exactly_one_terminal_action_witness :
    ∃ h, New [] = .ok h ∧
      (h (requestWithHeader (str "Authorization") (str "Bearer valid-key"))).trace.countP
        Event.isTerminal = 1 :=
  ⟨handler (NewOptions []) (selectExtractor (str "header") (str "Authorization") (str "Bearer")),
    New_of_parts [] _ _ (by decide),
    (C8_exactly_one_terminal_action [] _
      (requestWithHeader (str "Authorization") (str "Bearer valid-key"))
      (New_of_parts [] (str "header") (str "Authorization") (by decide))
      (fun f hf => Option.noConfusion hf)
      ⟨defaultValidator, rfl, fun c _ => ⟨_, rfl⟩⟩
      (fun hn => Option.noConfusion hn) (fun hn => Option.noConfusion hn)).1⟩

/-- C11: for every configuration and every request that passes the filter
step (no filter, or a filter that returns `false`) and on which the bound
extractor fails: the error it returns is `ErrMissingOrMalformedAPIKey`, the
handler built by `New` calls the error handler with exactly that error on the
context as the filter step left it, and makes no validator call, no success
handler call and no `ctx.Set` call. -/
theorem C11_extractor_failure_routes_to_errorHandler (opts : List KeyAuthOption)
    (source name k : GoString) (e : GoError) (ctx ctx1 : RequestContext)
    (hparts : Split (NewOptions opts).keyLookup colon = [source, name])
    (hfilter : FilterPasses (NewOptions opts) ctx ctx1)
    (hfail : selectExtractor source name (NewOptions opts).authScheme ctx1 = .ok (k, some e)) :
    e = ErrMissingOrMalformedAPIKey ∧
      ∃ h, New opts = .ok h ∧
        h ctx = Run.after (filterTrace (NewOptions opts) ++ [Event.extractor])
          (callErrorHandler (NewOptions opts) ctx1 (some ErrMissingOrMalformedAPIKey)) ∧
        (∀ err, Event.errorHandler err ∈ (h ctx).trace →
          err = some ErrMissingOrMalformedAPIKey) ∧
        (∀ k', Event.validator k' ∉ (h ctx).trace) ∧
        Event.successHandler ∉ (h ctx).trace ∧
        (∀ ck k', Event.set ck k' ∉ (h ctx).trace) := by
  have he : e = ErrMissingOrMalformedAPIKey := selectExtractor_error _ _ _ _ _ _ hfail
  subst he
  have hrun : handler (NewOptions opts)
        (selectExtractor source name (NewOptions opts).authScheme) ctx =
      Run.after (filterTrace (NewOptions opts) ++ [Event.extractor])
        (callErrorHandler (NewOptions opts) ctx1 (some ErrMissingOrMalformedAPIKey)) := by
    rw [handler_of_FilterPasses _ _ ctx ctx1 hfilter,
      extractAndVerify_of_failure _ _ ctx1 k _ hfail, Run_after_after]
  have hmem : ∀ ev, ev ∈ (handler (NewOptions opts)
        (selectExtractor source name (NewOptions opts).authScheme) ctx).trace →
      ev = Event.filterHandler ∨ ev = Event.extractor ∨
        ev = Event.errorHandler (some ErrMissingOrMalformedAPIKey) := by
    intro ev hev
    rw [hrun] at hev
    simp only [Run.after, List.mem_append, List.mem_singleton] at hev
    rcases hev with (hev | hev) | hev
    · exact Or.inl (mem_filterTrace _ _ hev)
    · exact Or.inr (Or.inl hev)
    · exact Or.inr (Or.inr (mem_callErrorHandler_trace _ _ _ _ hev))
  refine ⟨rfl, _, New_of_parts opts source name hparts, hrun, ?_, ?_, ?_, ?_⟩
  · intro err herr
    rcases hmem _ herr with h | h | h
    · cases h
    · cases h
    · exact Event.errorHandler.inj h
  · intro k' hk'
    rcases hmem _ hk' with h | h | h <;> cases h
  · intro hs
    rcases hmem _ hs with h | h | h <;> cases h
  · intro ck k' hk'
    rcases hmem _ hk' with h | h | h <;> cases h

/-- Witness of C11: the default configuration on a request whose header is
`Authorization: xyz` (no scheme): the error handler is called with
`ErrMissingOrMalformedAPIKey` and nothing else follows the extractor call. -/
theorem C11_extractor_failure_routes_to_errorHandler_witness :
    ∃ h, New [] = .ok h ∧
      (h (requestWithHeader (str "Authorization") (str "xyz"))).trace =
        [Event.extractor, Event.errorHandler (some ErrMissingOrMalformedAPIKey)] := by
  obtain ⟨-, h, hNew, hrun, -⟩ :=
    C11_extractor_failure_routes_to_errorHandler [] (str "header") (str "Authorization") []
      ErrMissingOrMalformedAPIKey
      (requestWithHeader (str "Authorization") (str "xyz"))
      (requestWithHeader (str "Authorization") (str "xyz"))
      (by decide) (Or.inl ⟨rfl, rfl⟩) rfl
  refine ⟨h, hNew, ?_⟩
  rw [hrun]
  rfl

/-- C12: on the success path (the validator returns `(true, nil)` on the
extracted key `k`) the handler built by `New` first stores `k` under the
configured context key and only then calls the success handler, on a context
whose store holds `k` under that key; and with no options at all, a request
whose header `Authorization` is `Bearer`, a space and a non-empty `k` ends
with the continuation invoked once and `k` stored under `token`. -/
theorem C12_success_stores_key_then_calls_successHandler :
    (∀ (opts : List KeyAuthOption) (source name k : GoString) (ctx ctx1 ctx2 : RequestContext)
        (vf : KeyAuthValidatorHandler),
        Split (NewOptions opts).keyLookup colon = [source, name] →
        FilterPasses (NewOptions opts) ctx ctx1 →
        selectExtractor source name (NewOptions opts).authScheme ctx1 = .ok (k, none) →
        (NewOptions opts).validator = some vf →
        vf ctx1 k = .ok ((true, none), ctx2) →
        ∃ h, New opts = .ok h ∧
          h ctx = Run.after
            (filterTrace (NewOptions opts) ++
              [Event.extractor, Event.validator k, Event.set (NewOptions opts).contextKey k])
            (callSuccessHandler (NewOptions opts) (ctx2.Set (NewOptions opts).contextKey k)) ∧
          (ctx2.Set (NewOptions opts).contextKey k).Get (NewOptions opts).contextKey = some k ∧
          (∀ sh, (NewOptions opts).successHandler = some sh →
            (h ctx).result = sh (ctx2.Set (NewOptions opts).contextKey k))) ∧
      (∀ (k : GoString) (ctx : RequestContext), k ≠ [] →
        ctx.header (str "Authorization") = some (str "Bearer" ++ space :: k) →
        ∃ h, New [] = .ok h ∧
          (h ctx).trace = [Event.extractor, Event.validator k, Event.set (str "token") k,
            Event.successHandler] ∧
          (h ctx).result = .ok (ctx.Set (str "token") k).Next ∧
          (ctx.Set (str "token") k).Next.Get (str "token") = some k ∧
          (ctx.Set (str "token") k).Next.nextCalls = ctx.nextCalls + 1) := by
  constructor
  · intro opts source name k ctx ctx1 ctx2 vf hparts hfilter hkey hval hret
    have hrun : handler (NewOptions opts)
          (selectExtractor source name (NewOptions opts).authScheme) ctx =
        Run.after
          (filterTrace (NewOptions opts) ++
            [Event.extractor, Event.validator k, Event.set (NewOptions opts).contextKey k])
          (callSuccessHandler (NewOptions opts) (ctx2.Set (NewOptions opts).contextKey k)) := by
      rw [handler_of_FilterPasses _ _ ctx ctx1 hfilter,
        extractAndVerify_of_valid _ _ ctx1 ctx2 k vf hkey hval hret, Run_after_after]
    refine ⟨_, New_of_parts opts source name hparts, hrun, ?_, ?_⟩
    · simp [RequestContext.Get, RequestContext.Set]
    · intro sh hsh
      rw [hrun]
      simp [Run.after, callSuccessHandler, hsh]
  · intro k ctx hk hv
    have hparts : Split (NewOptions []).keyLookup colon =
        [str "header", str "Authorization"] := by decide
    have hkey : selectExtractor (str "header") (str "Authorization")
        (NewOptions []).authScheme ctx = .ok (k, none) := by
      rw [selectExtractor_of_unknown _ _ _ (by decide) (by decide) (by decide) (by decide)]
      exact KeyFromHeader_of_scheme_space _ (str "Bearer") k ctx (by decide) hk hv
    have hrun : handler (NewOptions [])
          (selectExtractor (str "header") (str "Authorization") (NewOptions []).authScheme) ctx =
        Run.after ([] ++ [Event.extractor, Event.validator k, Event.set (str "token") k])
          (callSuccessHandler (NewOptions []) (ctx.Set (str "token") k)) := by
      rw [handler_of_FilterPasses _ _ ctx ctx (Or.inl ⟨rfl, rfl⟩),
        extractAndVerify_of_valid _ _ ctx ctx k defaultValidator hkey rfl rfl, Run_after_after]
      rfl
    refine ⟨_, New_of_parts [] _ _ hparts, ?_, ?_, ?_, rfl⟩
    · rw [hrun]
      rfl
    · rw [hrun]
      rfl
    · simp [RequestContext.Get, RequestContext.Set, RequestContext.Next]

/-- Witness of C12: the request of `TestKeyAuth`, header
`Authorization: Bearer valid-key`, under `New()`: the store ends with
`token = valid-key` and the continuation was invoked. -/
theorem C12_success_stores_key_then_calls_successHandler_witness :
    ∃ h, New [] = .ok h ∧
      (h (requestWithHeader (str "Authorization") (str "Bearer valid-key"))).result =
        .ok ((requestWithHeader (str "Authorization") (str "Bearer valid-key")).Set
          (str "token") (str "valid-key")).Next ∧
      ((requestWithHeader (str "Authorization") (str "Bearer valid-key")).Set
          (str "token") (str "valid-key")).Next.Get (str "token") = some (str "valid-key") := by
  obtain ⟨h, hNew, -, hres, hget, -⟩ :=
    C12_success_stores_key_then_calls_successHandler.2 (str "valid-key")
      (requestWithHeader (str "Authorization") (str "Bearer valid-key")) (by decide) (by decide)
  exact ⟨h, hNew, hres, hget⟩

/-- C13: for every non-nil error `e`, the default error handler installed by
`NewOptions` aborts the request with body `e.Error()` and status 400 when `e`
is `ErrMissingOrMalformedAPIKey`, status 401 for every other error; so a
validator that returns `(false, ErrMissingOrMalformedAPIKey)` under the default
error handler gives status 400 and body `missing or malformed API Key`. -/
theorem C13_default_errorHandler_status :
    (∃ eh, (NewOptions []).errorHandler = some eh ∧
        ∀ (ctx : RequestContext) (e : GoError),
          eh ctx (some e) =
            .ok (ctx.AbortWithMsg e.Error
              (if e = ErrMissingOrMalformedAPIKey then 400 else 401))) ∧
      ∃ h ctx', New [WithValidator (some refusingValidator)] = .ok h ∧
        (h (requestWithHeader (str "Authorization") (str "Bearer valid-key"))).result =
          .ok ctx' ∧
        ctx'.StatusCode = 400 ∧ ctx'.Body = str "missing or malformed API Key" ∧
        ctx'.aborted = true := by
  refine ⟨⟨defaultErrorHandler, rfl, fun ctx e => ?_⟩, ?_⟩
  · by_cases he : e = ErrMissingOrMalformedAPIKey
    · subst he
      rfl
    · have hne : ¬ (some e : error) = some ErrMissingOrMalformedAPIKey :=
        fun h => he (Option.some.inj h)
      unfold defaultErrorHandler
      rw [if_neg hne, if_neg he]
      rfl
  · exact ⟨handler (NewOptions [WithValidator (some refusingValidator)])
        (selectExtractor (str "header") (str "Authorization") (str "Bearer")), _,
      New_of_parts _ _ _ (by decide), rfl, rfl, rfl, rfl⟩

/-- C14: for every lookup spec `<source>:<name>` with exactly one colon whose
source token is none of `query`, `form`, `param`, `cookie`, setup does not
fail and the handler built by `New` is the handler bound to the extractor
`KeyFromHeader(<name>, authScheme)`: on every request it extracts the key
exactly as that extractor does. -/
theorem C14_unknown_source_falls_back_to_header (opts : List KeyAuthOption)
    (source name : GoString)
    (hlookup : (NewOptions opts).keyLookup = source ++ colon :: name)
    (hsource : colon ∉ source) (hname : colon ∉ name)
    (h1 : source ≠ str "query") (h2 : source ≠ str "form")
    (h3 : source ≠ str "param") (h4 : source ≠ str "cookie") :
    ∃ h, New opts = .ok h ∧
      h = handler (NewOptions opts) (KeyFromHeader name (NewOptions opts).authScheme) ∧
      ∀ ctx, selectExtractor source name (NewOptions opts).authScheme ctx =
        KeyFromHeader name (NewOptions opts).authScheme ctx := by
  have hparts : Split (NewOptions opts).keyLookup colon = [source, name] := by
    rw [hlookup, Split_append_sep source name colon hsource, Split_of_not_mem name colon hname]
  have hsel := selectExtractor_of_unknown source name (NewOptions opts).authScheme h1 h2 h3 h4
  refine ⟨_, New_of_parts opts source name hparts, ?_, fun ctx => ?_⟩
  · rw [hsel]
  · rw [hsel]

/-- Witness of C14: the misspelled source `Query` in `Query:X-Key`, scheme
`Bearer`: the key is read from the header `X-Key`. -/
theorem C14_unknown_source_falls_back_to_header_witness :
    ∃ h, New [WithKeyLookUp (str "Query:X-Key") (str "Bearer")] = .ok h ∧
      h = handler (NewOptions [WithKeyLookUp (str "Query:X-Key") (str "Bearer")])
        (KeyFromHeader (str "X-Key") (str "Bearer")) := by
  obtain ⟨h, hNew, hh, -⟩ :=
    C14_unknown_source_falls_back_to_header
      [WithKeyLookUp (str "Query:X-Key") (str "Bearer")] (str "Query") (str "X-Key")
      (by decide) (by decide) (by decide) (by decide) (by decide) (by decide) (by decide)
  exact ⟨h, hNew, hh⟩

/-- C16: `NewOptions` called with no options returns a configuration with
`keyLookup = "header:Authorization"`, `authScheme = "Bearer"`,
`contextKey = "token"`, no filter handler, a validator that returns
`(true, nil)` for every key, and a success handler that invokes the
continuation. -/
theorem C16_NewOptions_defaults :
    (NewOptions []).keyLookup = str "header:Authorization" ∧
      (NewOptions []).authScheme = str "Bearer" ∧
      (NewOptions []).contextKey = str "token" ∧
      (NewOptions []).filterHandler = none ∧
      (∃ vf, (NewOptions []).validator = some vf ∧
        ∀ ctx k, vf ctx k = .ok ((true, none), ctx)) ∧
      (∃ sh, (NewOptions []).successHandler = some sh ∧
        ∀ ctx, sh ctx = .ok ctx.Next ∧ ctx.Next.nextCalls = ctx.nextCalls + 1) :=
  ⟨by decide, by decide, by decide, rfl, ⟨defaultValidator, rfl, fun _ _ => rfl⟩,
    ⟨defaultSuccessHandler, rfl, fun _ => ⟨rfl, rfl⟩⟩⟩

/-- C15: `NewOptions` applies the options in call order to the defaults (the
last option of the argument list is applied to what the earlier ones gave);
for every sequence of calls of the six option constructors, each field of the
configuration ends with the value written by the last call that targets it
and keeps its default when no call targets it; and each constructor writes
only its own fields (`WithKeyLookUp` both `keyLookup` and `authScheme`). -/
theorem C15_options_last_write_wins :
    (∀ (opts : List KeyAuthOption) (op : KeyAuthOption),
        NewOptions (opts ++ [op]) = op.F (NewOptions opts)) ∧
      (∀ ss : List Setting,
        (NewOptions (ss.map Setting.toOption)).filterHandler =
            lastWriteOr Setting.writesFilterHandler ss defaultOptions.filterHandler ∧
          (NewOptions (ss.map Setting.toOption)).successHandler =
            lastWriteOr Setting.writesSuccessHandler ss defaultOptions.successHandler ∧
          (NewOptions (ss.map Setting.toOption)).errorHandler =
            lastWriteOr Setting.writesErrorHandler ss defaultOptions.errorHandler ∧
          (NewOptions (ss.map Setting.toOption)).keyLookup =
            lastWriteOr Setting.writesKeyLookup ss (str "header:Authorization") ∧
          (NewOptions (ss.map Setting.toOption)).authScheme =
            lastWriteOr Setting.writesAuthScheme ss (str "Bearer") ∧
          (NewOptions (ss.map Setting.toOption)).validator =
            lastWriteOr Setting.writesValidator ss defaultOptions.validator ∧
          (NewOptions (ss.map Setting.toOption)).contextKey =
            lastWriteOr Setting.writesContextKey ss (str "token")) ∧
      (∀ o f, (WithFilter f).F o = { o with filterHandler := f }) ∧
      (∀ o f, (WithSuccessHandler f).F o = { o with successHandler := f }) ∧
      (∀ o f, (WithErrorHandler f).F o = { o with errorHandler := f }) ∧
      (∀ o l a, (WithKeyLookUp l a).F o = { o with keyLookup := l, authScheme := a }) ∧
      (∀ o f, (WithValidator f).F o = { o with validator := f }) ∧
      (∀ o k, (WithContextKey k).F o = { o with contextKey := k }) ∧
      (NewOptions [WithContextKey (str "token1"),
          WithKeyLookUp (str "cookie:Authorization") (str "bear1")]).keyLookup =
        str "cookie:Authorization" ∧
      (NewOptions [WithContextKey (str "token1"),
          WithKeyLookUp (str "cookie:Authorization") (str "bear1")]).authScheme = str "bear1" ∧
      (NewOptions [WithContextKey (str "token1"),
          WithKeyLookUp (str "cookie:Authorization") (str "bear1")]).contextKey =
        str "token1" := by
  refine ⟨fun opts op => Apply_append_singleton defaultOptions opts op, fun ss => ?_,
    fun _ _ => rfl, fun _ _ => rfl, fun _ _ => rfl, fun _ _ _ => rfl, fun _ _ => rfl,
    fun _ _ => rfl, rfl, rfl, rfl⟩
  refine ⟨?_, ?_, ?_, ?_, ?_, ?_, ?_⟩
  · exact Apply_lastWrite (fun o => o.filterHandler) Setting.writesFilterHandler
      (fun s o => by cases s <;> rfl) ss defaultOptions
  · exact Apply_lastWrite (fun o => o.successHandler) Setting.writesSuccessHandler
      (fun s o => by cases s <;> rfl) ss defaultOptions
  · exact Apply_lastWrite (fun o => o.errorHandler) Setting.writesErrorHandler
      (fun s o => by cases s <;> rfl) ss defaultOptions
  · have h := Apply_lastWrite (fun o => o.keyLookup) Setting.writesKeyLookup
      (fun s o => by cases s <;> rfl) ss defaultOptions
    have hd : defaultOptions.keyLookup = str "header:Authorization" := by decide
    rw [← hd]
    exact h
  · exact Apply_lastWrite (fun o => o.authScheme) Setting.writesAuthScheme
      (fun s o => by cases s <;> rfl) ss defaultOptions
  · exact Apply_lastWrite (fun o => o.validator) Setting.writesValidator
      (fun s o => by cases s <;> rfl) ss defaultOptions
  · exact Apply_lastWrite (fun o => o.contextKey) Setting.writesContextKey
      (fun s o => by cases s <;> rfl) ss defaultOptions

/-- C17 (the claim fails): with no option, the `successHandler` and the
`validator` slots are not nil, and the default error handler answers the
error `invalid key` with that message as body, not `Invalid or expired key`,
and answers `ErrMissingOrMalformedAPIKey` with status 400, not 401. -/
theorem C17_doc_comment_defaults_counterexample :
    (NewOptions []).successHandler ≠ none ∧
      (NewOptions []).validator ≠ none ∧
      ∃ eh, (NewOptions []).errorHandler = some eh ∧
        (∃ ctx', eh (requestWithHeader (str "Authorization") (str "Bearer valid-key"))
            (some errInvalidKey) = .ok ctx' ∧
          ctx'.Body = str "invalid key" ∧ ctx'.Body ≠ str "Invalid or expired key") ∧
        (∃ ctx', eh (requestWithHeader (str "Authorization") (str "Bearer valid-key"))
            (some ErrMissingOrMalformedAPIKey) = .ok ctx' ∧
          ctx'.StatusCode = 400 ∧ ctx'.StatusCode ≠ 401 ∧
          ctx'.Body ≠ str "Invalid or expired key") :=
  ⟨fun h => Option.noConfusion h, fun h => Option.noConfusion h, defaultErrorHandler, rfl,
    ⟨_, rfl, by decide, by decide⟩, ⟨_, rfl, by decide, by decide, by decide⟩⟩

/-- C17 as amended: when no option overrides them, the `errorHandler` slot
holds a handler that answers every non-nil error `e` with `e.Error()` as body
and status 400 when `e` is `ErrMissingOrMalformedAPIKey`, 401 otherwise; the
`successHandler` slot holds a handler that invokes the continuation; and the
`validator` slot holds a validator that returns `(true, nil)` for every key. -/
theorem C17_defaults_as_set_by_NewOptions :
    (∃ eh, (NewOptions []).errorHandler = some eh ∧
        (∀ ctx, eh ctx (some ErrMissingOrMalformedAPIKey) =
          .ok (ctx.AbortWithMsg (str "missing or malformed API Key") StatusBadRequest)) ∧
        (∀ ctx msg, eh ctx (some (GoError.other msg)) =
          .ok (ctx.AbortWithMsg msg StatusUnauthorized))) ∧
      (∃ sh, (NewOptions []).successHandler = some sh ∧ ∀ ctx, sh ctx = .ok ctx.Next) ∧
      (∃ vf, (NewOptions []).validator = some vf ∧
        ∀ ctx k, vf ctx k = .ok ((true, none), ctx)) :=
  ⟨⟨defaultErrorHandler, rfl, fun _ => rfl, fun _ _ => rfl⟩,
    ⟨defaultSuccessHandler, rfl, fun _ => rfl⟩,
    ⟨defaultValidator, rfl, fun _ _ => rfl⟩⟩

/-- C18: every key that one of the five extractors returns with a nil error
is a non-empty string; hence, in every run of a handler built by `New`, the
validator is never called with the empty key and `ctx.Set` never stores the
empty string. -/
theorem C18_extracted_key_nonempty :
    (∀ (name scheme k : GoString) (c : RequestContext),
        KeyFromHeader name scheme c = .ok (k, none) → k ≠ []) ∧
      (∀ (name k : GoString) (c : RequestContext),
        KeyFromQuery name c = .ok (k, none) → k ≠ []) ∧
      (∀ (name k : GoString) (c : RequestContext),
        KeyFromForm name c = .ok (k, none) → k ≠ []) ∧
      (∀ (name k : GoString) (c : RequestContext),
        KeyFromParam name c = .ok (k, none) → k ≠ []) ∧
      (∀ (name k : GoString) (c : RequestContext),
        KeyFromCookie name c = .ok (k, none) → k ≠ []) ∧
      (∀ (opts : List KeyAuthOption) (h : RequestContext → Run) (ctx : RequestContext),
        New opts = .ok h →
        (∀ k, Event.validator k ∈ (h ctx).trace → k ≠ []) ∧
          (∀ ck k, Event.set ck k ∈ (h ctx).trace → k ≠ [])) := by
  have hfield : ∀ (field : Option GoString) (k : GoString),
      (if field.getD [] = [] then
          (.ok ([], some ErrMissingOrMalformedAPIKey) : Except Panic (GoString × error))
        else .ok (field.getD [], none)) = .ok (k, none) → k ≠ [] := by
    intro field k h
    rcases fieldExtractor_cases field with h' | ⟨k', hk', h'⟩
    · rw [h'] at h
      cases h
    · rw [h'] at h
      cases h
      exact hk'
  refine ⟨?_, fun name k c => hfield (c.query name) k, fun name k c => hfield (some (c.FormValue name)) k,
    fun name k c => hfield (c.param name) k, fun name k c => hfield (c.cookie name) k, ?_⟩
  · intro name scheme k c h
    rcases KeyFromHeader_cases name scheme c with h' | ⟨k', hk', h'⟩
    · rw [h'] at h
      cases h
    · rw [h'] at h
      cases h
      exact hk'
  · intro opts h ctx hNew
    obtain ⟨source, name, -, rfl⟩ := New_inv opts h hNew
    constructor
    · intro k hk
      obtain ⟨ctx1, hex⟩ := handler_key_event _ _ ctx k (Or.inl hk)
      exact selectExtractor_key_ne_nil _ _ _ _ _ hex
    · intro ck k hk
      obtain ⟨ctx1, hex⟩ := handler_key_event _ _ ctx k (Or.inr ⟨ck, hk⟩)
      exact selectExtractor_key_ne_nil _ _ _ _ _ hex

/-- Witness of C18: the key `valid-key` extracted from `Bearer valid-key` is
not empty, nor is the key passed to the validator by `New()`. -/
theorem C18_extracted_key_nonempty_witness :
    str "valid-key" ≠ [] ∧
      ∃ h, New [] = .ok h ∧
        ∀ k, Event.validator k ∈
          (h (requestWithHeader (str "Authorization") (str "Bearer valid-key"))).trace →
          k ≠ [] :=
  ⟨C18_extracted_key_nonempty.1 (str "Authorization") (str "Bearer") (str "valid-key")
      (requestWithHeader (str "Authorization") (str "Bearer valid-key")) rfl,
    handler (NewOptions []) (selectExtractor (str "header") (str "Authorization") (str "Bearer")),
    New_of_parts [] _ _ (by decide),
    (C18_extracted_key_nonempty.2.2.2.2.2 [] _
      (requestWithHeader (str "Authorization") (str "Bearer valid-key"))
      (New_of_parts [] (str "header") (str "Authorization") (by decide))).1⟩

/-- C19: exact characterisation of `KeyFromHeader` for a non-empty scheme `s`:
for every header value `v` the extractor returns (no slice is out of bounds);
it succeeds if and only if `len(v) > len(s) + 1` and the first `len(s)` bytes
of `v` are `s`; on success the key is `v` without its first `len(s) + 1`
bytes, otherwise the extractor fails with `ErrMissingOrMalformedAPIKey`; so a
header equal to `s`, or to `s` and one more byte, is refused. -/
theorem C19_KeyFromHeader_characterisation (name s v : GoString) (c : RequestContext)
    (hs : s ≠ []) (hv : c.GetHeader name = v) :
    (∃ r, KeyFromHeader name s c = .ok r) ∧
      ((∃ k, KeyFromHeader name s c = .ok (k, none)) ↔
        s.length + 1 < v.length ∧ v.take s.length = s) ∧
      (s.length + 1 < v.length ∧ v.take s.length = s →
        KeyFromHeader name s c = .ok (v.drop (s.length + 1), none)) ∧
      (¬ (s.length + 1 < v.length ∧ v.take s.length = s) →
        KeyFromHeader name s c = .ok ([], some ErrMissingOrMalformedAPIKey)) ∧
      (v = s → Fails (KeyFromHeader name s c)) ∧
      (∀ b, v = s ++ [b] → Fails (KeyFromHeader name s c)) := by
  have hs0 : s.length ≠ 0 := fun h => hs (List.length_eq_zero.mp h)
  have hyes : s.length + 1 < v.length ∧ v.take s.length = s →
      KeyFromHeader name s c = .ok (v.drop (s.length + 1), none) := by
    intro hc
    rw [KeyFromHeader_eq, hv, if_neg (fun h => hs0 h.2), if_pos hc]
  have hno : ¬ (s.length + 1 < v.length ∧ v.take s.length = s) →
      KeyFromHeader name s c = .ok ([], some ErrMissingOrMalformedAPIKey) := by
    intro hc
    rw [KeyFromHeader_eq, hv, if_neg (fun h => hs0 h.2), if_neg hc]
  refine ⟨⟨_, KeyFromHeader_eq name s c⟩, ⟨?_, fun hc => ⟨_, hyes hc⟩⟩, hyes, hno, ?_, ?_⟩
  · rintro ⟨k, hk⟩
    by_contra hc
    rw [hno hc] at hk
    cases hk
  · intro hvs
    refine ⟨[], hno (fun hc => ?_)⟩
    rw [hvs] at hc
    omega
  · intro b hb
    refine ⟨[], hno (fun hc => ?_)⟩
    rw [hb] at hc
    simp only [List.length_append, List.length_cons, List.length_nil] at hc
    omega

/-- Witness of C19: with scheme `Bearer`, the header `Bearer valid-key` gives
`valid-key`, and the headers `Bearer` and `Bearer` plus a space are refused. -/
theorem C19_KeyFromHeader_characterisation_witness :
    KeyFromHeader (str "Authorization") (str "Bearer")
        (requestWithHeader (str "Authorization") (str "Bearer valid-key")) =
        .ok (str "valid-key", none) ∧
      Fails (KeyFromHeader (str "Authorization") (str "Bearer")
        (requestWithHeader (str "Authorization") (str "Bearer"))) ∧
      Fails (KeyFromHeader (str "Authorization") (str "Bearer")
        (requestWithHeader (str "Authorization") (str "Bearer "))) :=
  ⟨(C19_KeyFromHeader_characterisation (str "Authorization") (str "Bearer")
      (str "Bearer valid-key")
      (requestWithHeader (str "Authorization") (str "Bearer valid-key"))
      (by decide) (by decide)).2.2.1 (by decide),
    (C19_KeyFromHeader_characterisation (str "Authorization") (str "Bearer") (str "Bearer")
      (requestWithHeader (str "Authorization") (str "Bearer"))
      (by decide) (by decide)).2.2.2.2.1 (by decide),
    (C19_KeyFromHeader_characterisation (str "Authorization") (str "Bearer") (str "Bearer ")
      (requestWithHeader (str "Authorization") (str "Bearer "))
      (by decide) (by decide)).2.2.2.2.2 space (by decide)⟩

end keyauth
